import Mathlib

/-!
Verification development for the svg-backend generation service
(`src/modules/svg-generator/service/svg-generation.service.ts`).

Documents are modelled as lists of characters (`Doc`).  The JavaScript
regular-expression operations used by the service are small and fixed, so
each one is translated into an explicit scanning function with the same
match semantics (leftmost match, case-insensitive where the source uses
the `i` flag).
-/

namespace SvgBackend

abbrev Doc := List Char

/-- Convert a string literal to a character-list document. -/
def dstr (s : String) : Doc := s.toList

/-- Case-insensitive character comparison (JavaScript `i` regex flag). -/
def ciEq (a b : Char) : Bool := a.toLower == b.toLower

/-- Case-sensitive character comparison. -/
def csEq (a b : Char) : Bool := a == b

/-- `isPrefixBy eq pat s` : does `pat` match at the head of `s` under `eq`? -/
def isPrefixBy (eq : Char → Char → Bool) : Doc → Doc → Bool
  | [], _ => true
  | _ :: _, [] => false
  | p :: ps, c :: cs => eq p c && isPrefixBy eq ps cs

/-- Suffix of `s` starting at the first occurrence of `pat` (under `eq`). -/
def dropToBy (eq : Char → Char → Bool) (pat : Doc) : Doc → Option Doc
  | [] => if isPrefixBy eq pat [] then some [] else none
  | c :: cs =>
    if isPrefixBy eq pat (c :: cs) then some (c :: cs) else dropToBy eq pat cs

/-- Index of the first occurrence of `pat` in `s` (under `eq`). -/
def findIdxBy (eq : Char → Char → Bool) (pat : Doc) : Doc → Option Nat
  | [] => if isPrefixBy eq pat [] then some 0 else none
  | c :: cs =>
    if isPrefixBy eq pat (c :: cs) then some 0
    else (findIdxBy eq pat cs).map (· + 1)

/-- Does `pat` occur anywhere in `s` (under `eq`)?  Models `String.includes`
(case-sensitive `eq`) and case-insensitive regex containment tests. -/
def containsBy (eq : Char → Char → Bool) (pat : Doc) (s : Doc) : Bool :=
  (dropToBy eq pat s).isSome

/-- Number of positions of `s` where `pat` matches.  The patterns this is
used with (`<svg`, `</svg>`) cannot overlap themselves, so this equals the
number of matches of the corresponding global regex. -/
def countBy (eq : Char → Char → Bool) (pat : Doc) : Doc → Nat
  | [] => 0
  | c :: cs =>
    (if isPrefixBy eq pat (c :: cs) then 1 else 0) + countBy eq pat cs

/-- JavaScript whitespace test (`\s`, `trim`) restricted to the ASCII
whitespace actually occurring in the data. -/
def wsp (c : Char) : Bool := c.isWhitespace

/-- `String.prototype.trim`. -/
def trimDoc (s : Doc) : Doc :=
  (((s.dropWhile wsp).reverse).dropWhile wsp).reverse

/-!  ## Content sanitizer (`cleanSvgContent`, `isValidFullSvg`)  -/

/-- The basic shape test `/<svg[^>]*>[\s\S]*<\/svg>/i`: a `<svg` opening,
a `>` closing the tag, and a later `</svg>`. -/
def basicSvgShape (s : Doc) : Bool :=
  match dropToBy ciEq (dstr "<svg") s with
  | none => false
  | some t =>
    let u := (t.drop 4).dropWhile (fun c => !(c == '>'))
    match u with
    | [] => false
    | _ :: rest => containsBy ciEq (dstr "</svg>") rest

/-- The literal namespace attribute tested with `String.includes`. -/
def xmlnsAttr : Doc := dstr "xmlns=\"http://www.w3.org/2000/svg\""

/-- `svgContent.replace(/<svg/i, '<svg xmlns="http://www.w3.org/2000/svg"')`:
non-global replace of the first (case-insensitive) `<svg`. -/
def replaceFirstSvg : Doc → Doc
  | [] => []
  | c :: cs =>
    if isPrefixBy ciEq (dstr "<svg") (c :: cs) then
      dstr "<svg xmlns=\"http://www.w3.org/2000/svg\"" ++ (c :: cs).drop 4
    else c :: replaceFirstSvg cs

/-- `isValidFullSvg`: basic open/close shape, best-effort namespace repair,
then exactly one `<svg` and one `</svg>` occurrence. -/
def isValidFullSvg (s : Doc) : Bool :=
  if !basicSvgShape s then false
  else
    let validatedSvg := if containsBy csEq xmlnsAttr s then s else replaceFirstSvg s
    countBy ciEq (dstr "<svg") validatedSvg == 1 &&
      countBy ciEq (dstr "</svg>") validatedSvg == 1

/-- `getDefaultSvg(message)` with `SVG_WIDTH = 800`. -/
def getDefaultSvg (message : Doc) : Doc :=
  dstr "<svg xmlns=\"http://www.w3.org/2000/svg\" viewBox=\"0 0 800 800\" width=\"800\" height=\"800\">\n<rect width=\"100%\" height=\"100%\" fill=\"#f8f9fa\" />\n<text x=\"50%\" y=\"50%\" font-family=\"Arial\" font-size=\"24\" text-anchor=\"middle\" dominant-baseline=\"middle\" fill=\"#6c757d\">\n    "
    ++ message ++
    dstr " - AI 生成内容将稍后显示\n</text>\n<text x=\"50%\" y=\"58%\" font-family=\"Arial\" font-size=\"16\" text-anchor=\"middle\" dominant-baseline=\"middle\" fill=\"#6c757d\">\n    请稍候或尝试重新生成\n</text>\n</svg>"

/-- After three backticks, `(svg|xml|html)?` consumes an optional language
tag (alternatives tried in source order, case-insensitively). -/
def dropFenceTag (t : Doc) : Doc :=
  if isPrefixBy ciEq (dstr "svg") t then t.drop 3
  else if isPrefixBy ciEq (dstr "xml") t then t.drop 3
  else if isPrefixBy ciEq (dstr "html") t then t.drop 4
  else t

/-- `.replace(/```(svg|xml|html)?\s*/gi, "")`: global removal of fence
markers; fuel-based scan (fuel is the length of the input). -/
def stripFencesFuel : Nat → Doc → Doc
  | 0, s => s
  | _ + 1, [] => []
  | n + 1, c :: cs =>
    if isPrefixBy csEq (dstr "```") (c :: cs) then
      stripFencesFuel n ((dropFenceTag (cs.drop 2)).dropWhile wsp)
    else c :: stripFencesFuel n cs

def stripFences (s : Doc) : Doc := stripFencesFuel s.length s

/-- `.replace(/```\s*$/g, "")`: cut at the first backtick fence that is
followed only by whitespace up to the end. -/
def stripEndFence : Doc → Doc
  | [] => []
  | c :: cs =>
    if isPrefixBy csEq (dstr "```") (c :: cs) && (cs.drop 2).all wsp then []
    else c :: stripEndFence cs

/-- First match of `/<svg[\s\S]*?<\/svg>/i`: from the first `<svg` through
the first subsequent `</svg>` (lazy quantifier). -/
def fullSvgMatch (s : Doc) : Option Doc :=
  match dropToBy ciEq (dstr "<svg") s with
  | none => none
  | some t =>
    match findIdxBy ciEq (dstr "</svg>") (t.drop 4) with
    | none => none
    | some k => some (t.take (4 + k + 6))

/-- First match of `/<svg[^>]*>/i` exists iff the first `<svg` has a later
`>`; the code then takes `cleaned.substring(svgStart)`, the suffix starting
at that match (for the first match of the pattern, `indexOf` of the matched
text is the match position itself). -/
def openFragment (s : Doc) : Option Doc :=
  match dropToBy ciEq (dstr "<svg") s with
  | none => none
  | some t => if (t.drop 4).any (fun c => c == '>') then some t else none

/-- The alternatives of the leaf-element regex, in source order. -/
def leafNames : List Doc :=
  [dstr "circle", dstr "rect", dstr "path", dstr "g", dstr "text",
   dstr "line", dstr "polyline", dstr "polygon", dstr "ellipse"]

/-- Containment test for
`/<(circle|rect|path|g|text|line|polyline|polygon|ellipse)[\s\S]*?>/i`. -/
def hasLeafElement : Doc → Bool
  | [] => false
  | c :: cs =>
    (c == '<' && leafNames.any (fun n =>
      isPrefixBy ciEq n cs && (cs.drop n.length).any (fun d => d == '>')))
    || hasLeafElement cs

/-- Synthesized wrapper root used for bare leaf fragments
(`SVG_WIDTH = 800` for both viewport dimensions). -/
def wrapLeafFragment (cleaned : Doc) : Doc :=
  dstr "<svg xmlns=\"http://www.w3.org/2000/svg\" viewBox=\"0 0 800 800\">"
    ++ cleaned ++ dstr "</svg>"

/-- Trailing part of `cleanSvgContent`: leaf-fragment wrapping, then the
fallback document. -/
def cleanLeafOrDefault (cleaned : Doc) : Doc :=
  if hasLeafElement cleaned then
    if isValidFullSvg (wrapLeafFragment cleaned) then wrapLeafFragment cleaned
    else getDefaultSvg (dstr "解析失败")
  else getDefaultSvg (dstr "解析失败")

/-- Middle part of `cleanSvgContent`: open-tag repair / extraction. -/
def cleanOpenTag (cleaned : Doc) : Doc :=
  match openFragment cleaned with
  | none => cleanLeafOrDefault cleaned
  | some t =>
    if containsBy csEq (dstr "</svg>") t = false then t ++ dstr "</svg>"
    else
      match findIdxBy csEq (dstr "</svg>") t with
      | none => cleanLeafOrDefault cleaned
      | some k =>
        if 6 < k + 6 then
          if isValidFullSvg (t.take (k + 6)) then t.take (k + 6)
          else cleanLeafOrDefault cleaned
        else cleanLeafOrDefault cleaned

/-- `cleanSvgContent`; `cleaned` is the fence-stripped, trimmed input. -/
def cleanSvgContent (s : Doc) : Doc :=
  if trimDoc s = [] then getDefaultSvg (dstr "无法解析内容")
  else if isValidFullSvg s then s
  else
    match fullSvgMatch (trimDoc (stripEndFence (stripFences s))) with
    | some m =>
      if isValidFullSvg m then m
      else cleanOpenTag (trimDoc (stripEndFence (stripFences s)))
    | none => cleanOpenTag (trimDoc (stripEndFence (stripFences s)))

/-!  ## Aspect-ratio computation (`calculateHeightFromAspectRatio`)

JavaScript numbers are modelled as `Option ℚ`: `some q` is a finite value,
`none` is `NaN`.  Only the decimal numerals relevant to aspect-ratio
strings are modelled for the `Number` conversion.  -/

/-- Value of a digit string as a natural number. -/
def digitsVal : List Char → Nat
  | [] => 0
  | c :: cs => digitsVal cs + c.toNat.sub 48 * 10 ^ cs.length

/-- Parse an unsigned decimal numeral (digits, optional single dot). -/
def parseDecimal (l : Doc) : Option ℚ :=
  let ip := l.takeWhile Char.isDigit
  let rest := l.dropWhile Char.isDigit
  match rest with
  | [] => if ip = [] then none else some (digitsVal ip)
  | '.' :: fp =>
    if fp.all Char.isDigit && !(ip = [] && fp = []) then
      some ((digitsVal ip : ℚ) + (digitsVal fp : ℚ) / (10 : ℚ) ^ fp.length)
    else none
  | _ => none

/-- JavaScript `Number(string)` on decimal numerals: trims whitespace,
empty means `0`, optional sign, otherwise `NaN` (`none`). -/
def jsNumber (s : Doc) : Option ℚ :=
  match trimDoc s with
  | [] => some 0
  | '+' :: r => parseDecimal r
  | '-' :: r => (parseDecimal r).map (fun q => -q)
  | t => parseDecimal t

/-- JavaScript `x <= c` : false when `x` is `NaN`. -/
def jsLe (x : Option ℚ) (c : ℚ) : Bool :=
  match x with
  | none => false
  | some q => decide (q ≤ c)

/-- `NaN`-propagating multiplication, written on numerators/denominators
so that concrete instances evaluate inside the kernel;
`jsMul_eq_mul` below proves it is ordinary multiplication. -/
def jsMul (a b : Option ℚ) : Option ℚ :=
  match a, b with
  | some x, some y => some (Rat.divInt (x.num * y.num) ((x.den : Int) * (y.den : Int)))
  | _, _ => none

/-- `NaN`-propagating division (`jsDiv_eq_div` below proves it is ordinary
division).  Division by zero is unreachable behind the positivity guard in
`calculateHeightFromAspectRatio`. -/
def jsDiv (a b : Option ℚ) : Option ℚ :=
  match a, b with
  | some x, some y =>
    if y == 0 then none
    else some (Rat.divInt (x.num * (y.den : Int)) ((x.den : Int) * y.num))
  | _, _ => none

/-- JavaScript `Math.round`: the floor of `q + 1/2` (half-up, towards
`+∞`), with the sum written on numerators/denominators
(`jsRound_eq_floor` below); `NaN` maps to `NaN`. -/
def jsRound (x : Option ℚ) : Option ℚ :=
  x.map (fun q =>
    (((Rat.divInt (2 * q.num + (q.den : Int)) (2 * (q.den : Int))).floor : ℤ) : ℚ))

/-- `"a:b:c".split(":")`. -/
def splitOnColonAux : Doc → Doc → List Doc
  | [], acc => [acc.reverse]
  | c :: cs, acc =>
    if c == ':' then acc.reverse :: splitOnColonAux cs []
    else splitOnColonAux cs (c :: acc)

def splitOnColon (s : Doc) : List Doc := splitOnColonAux s []

/-- `calculateHeightFromAspectRatio` with `SVG_WIDTH = 800`.  When the
string contains a `:` it always splits into at least two parts, so the
default components below are unreachable. -/
def calculateHeightFromAspectRatio (aspectRatio : Doc) : Option ℚ :=
  if !(aspectRatio.any (fun c => c == ':')) then some 800
  else
    let parts := splitOnColon aspectRatio
    let width := jsNumber (parts.getD 0 [])
    let height := jsNumber (parts.getD 1 [])
    if jsLe width 0 || jsLe height 0 then some 800
    else jsRound (jsDiv (jsMul (some 800) height) width)

/-!  ## Persistent store model

Rows carry the columns of `prisma/schema.prisma` that the verified
operations read or write; `updatedAt` is maintained automatically by the
ORM (`@updatedAt`) on every update.  Timestamps are `Nat`, credits `Int`.
User columns other than the credit balance are never touched by the
generation service and are omitted. -/

structure SvgModifyRecord where
  content : Doc
  timestamp : Nat
  editedBy : Int
deriving DecidableEq, Repr

/-- The edit-history push of `updateSvgVersion` (lines 836-840):
`unshift` the new record, then `pop` the last entry when the length
exceeds 10. -/
def pushModifyRecord (r : SvgModifyRecord) (l : List SvgModifyRecord) :
    List SvgModifyRecord :=
  if 10 < (r :: l).length then (r :: l).dropLast else r :: l

structure UserRow where
  id : Int
  remainingCredits : Int
deriving DecidableEq, Repr

structure GenerationRow where
  id : Int
  userId : Int
  inputContent : String
  style : Option String
  aspectRatio : Option String
  configWidth : ℚ
  configHeight : Option ℚ
  configAspectRatio : String
  configImage : Option String
  configFileContent : Option String
  modelNames : List String
  title : Option String
  isPublic : Bool
  shareToken : Option String
  createdAt : Nat
  updatedAt : Nat
deriving DecidableEq, Repr

structure VersionRow where
  id : Int
  generationId : Int
  svgContent : Doc
  svgModifyList : List SvgModifyRecord
  versionNumber : Int
  isAiGenerated : Bool
  createdAt : Nat
  lastEditedAt : Option Nat
  lastEditedBy : Option Int
deriving DecidableEq, Repr

structure Store where
  users : List UserRow
  generations : List GenerationRow
  versions : List VersionRow
  nextGenId : Int
  nextVerId : Int
deriving DecidableEq, Repr

def findUser (st : Store) (uid : Int) : Option UserRow :=
  st.users.find? (fun u => u.id == uid)

def findGeneration (st : Store) (gid : Int) : Option GenerationRow :=
  st.generations.find? (fun g => g.id == gid)

def findVersion (st : Store) (vid : Int) : Option VersionRow :=
  st.versions.find? (fun v => v.id == vid)

/-- Replace the first row matching `p` (ids are unique keys, so the first
match is the row an ORM `update` addresses). -/
def updateFirstBy (p : α → Bool) (f : α → α) : List α → List α
  | [] => []
  | x :: xs => if p x then f x :: xs else x :: updateFirstBy p f xs

/-- `user.update({data: {remainingCredits: {decrement: 1}}})`. -/
def decrementCredits (st : Store) (uid : Int) : Store :=
  { st with
    users := updateFirstBy (fun u => u.id == uid)
      (fun u => { u with remainingCredits := u.remainingCredits - 1 }) st.users }

def balanceOf (st : Store) (uid : Int) : Option Int :=
  (findUser st uid).map (fun u => u.remainingCredits)

/-!  ## Generation service operations  -/

structure SvgGenerationInput where
  inputContent : String
  style : Option String
  aspectRatio : Option String
  isThinking : Option String
  type : Option String
  image : Option String
  fileContent : Option String
deriving DecidableEq, Repr

/-- `let height = this.SVG_WIDTH; if (data.aspectRatio) height = ...`. -/
def resolveHeight (data : SvgGenerationInput) : Option ℚ :=
  match data.aspectRatio with
  | none => some 800
  | some ar => calculateHeightFromAspectRatio (dstr ar)

/-- Decimal rendering of an interpolated height (`${height}`); heights are
`Math.round` results, hence integral, or `NaN`. -/
def renderNum (h : Option ℚ) : Doc :=
  match h with
  | none => dstr "NaN"
  | some q => dstr (toString q.num)

/-- The placeholder document of the synchronous `create` path. -/
def svgPlaceholder (height : Option ℚ) : Doc :=
  dstr "<svg xmlns=\"http://www.w3.org/2000/svg\" viewBox=\"0 0 800 "
    ++ renderNum height
    ++ dstr "\" width=\"800\" height=\""
    ++ renderNum height
    ++ dstr "\"><text x=\"10\" y=\"50\">正在生成 SVG...</text></svg>"

inductive CreateErr where
  | userNotFound
  | noCredits
deriving DecidableEq, Repr

/-- The pre-check of `create`/`createStream`: user exists and
`remainingCredits > 0`.  It reads the store outside any transaction. -/
def createCheck (st : Store) (uid : Int) : Except CreateErr UserRow :=
  match findUser st uid with
  | none => .error .userNotFound
  | some u => if u.remainingCredits ≤ 0 then .error .noCredits else .ok u

/-- `prepareConfiguration` resolved into explicit fields. -/
def mkConfig (data : SvgGenerationInput) (height : Option ℚ) :
    ℚ × Option ℚ × String :=
  (800, height, data.aspectRatio.getD "1:1")

/-- The `$transaction` body of the synchronous `create`: decrement, create
the generation row, create placeholder version 1.  The balance check is
NOT part of this atomic unit in the source. -/
def createTxn (st : Store) (uid : Int) (data : SvgGenerationInput) (now : Nat) :
    Store × GenerationRow :=
  let height := resolveHeight data
  let st1 := decrementCredits st uid
  let gen : GenerationRow :=
    { id := st.nextGenId, userId := uid, inputContent := data.inputContent,
      style := data.style, aspectRatio := data.aspectRatio,
      configWidth := 800, configHeight := height,
      configAspectRatio := data.aspectRatio.getD "1:1",
      configImage := data.image, configFileContent := data.fileContent,
      modelNames := ["claude-3-7-sonnet-all"], title := none,
      isPublic := false, shareToken := none, createdAt := now, updatedAt := now }
  let ver : VersionRow :=
    { id := st.nextVerId, generationId := gen.id,
      svgContent := svgPlaceholder height, svgModifyList := [],
      versionNumber := 1, isAiGenerated := true, createdAt := now,
      lastEditedAt := none, lastEditedBy := none }
  ({ st1 with generations := st1.generations ++ [gen],
              versions := st1.versions ++ [ver],
              nextGenId := st.nextGenId + 1, nextVerId := st.nextVerId + 1 },
   gen)

/-- The synchronous `create`: check (outside the transaction), then the
atomic transaction. -/
def create (st : Store) (uid : Int) (data : SvgGenerationInput) (now : Nat) :
    Except CreateErr (Store × GenerationRow) :=
  match createCheck st uid with
  | .error e => .error e
  | .ok _ => .ok (createTxn st uid data now)

/-- `updateSvgVersion`: clean the content, look up the version, push the
edit record (the JSON well-formedness filter keeps every entry of a typed
history list), write back.  ORM errors aside, the only failure is the
missing version. -/
def updateSvgVersion (st : Store) (versionId : Int) (svgContent : Doc)
    (userId : Int) (now : Nat) : Except String (Store × VersionRow) :=
  let cleanedSvgContent := cleanSvgContent svgContent
  match findVersion st versionId with
  | none => .error "NotFoundException"
  | some existingVersion =>
    let record : SvgModifyRecord :=
      { content := cleanedSvgContent, timestamp := now, editedBy := userId }
    let modifyList := pushModifyRecord record existingVersion.svgModifyList
    let updated : VersionRow :=
      { existingVersion with
        svgContent := cleanedSvgContent, svgModifyList := modifyList,
        lastEditedAt := some now, lastEditedBy := some userId }
    let versions' := updateFirstBy (fun v => v.id == versionId) (fun _ => updated) st.versions
    .ok ({ st with versions := versions' }, updated)

/-- `updatePublicStatus`: look up, then update `isPublic` (the ORM also
touches the `@updatedAt` column). -/
def updatePublicStatus (st : Store) (generationId : Int) (isPublic : Bool)
    (now : Nat) : Except String (Store × GenerationRow) :=
  match findGeneration st generationId with
  | none => .error "NotFoundException"
  | some g =>
    let g' := { g with isPublic := isPublic, updatedAt := now }
    let generations' := updateFirstBy (fun x => x.id == generationId) (fun _ => g') st.generations
    .ok ({ st with generations := generations' }, g')

/-!  ## Streaming orchestrator (`createStream`)

`createStream` is embedded as a deterministic function of an environment
describing the outcomes of the external collaborators: whether the
generation insert succeeds, whether the provider call and its token stream
succeed, the fragments produced, whether the final version insert
succeeds, whether the credit-decrement update succeeds, and from which
write attempt on the transport fails (a dead channel stays dead).
Keep-alive comment frames and `drain`/flush calls carry no data events and
are not modelled; `reply.raw.end()` itself is modelled as non-throwing
(every call site guards it with `try`/flags). -/

structure StreamEnv where
  genCreateOk : Bool
  providerCallOk : Bool
  chunks : List String
  streamThrows : Bool
  versionCreateOk : Bool
  decrementOk : Bool
  deadFrom : Option Nat
deriving DecidableEq, Repr

inductive StreamEvent where
  | started (id : Int)
  | streaming (id : Int) (chunk : String)
  | completed (id : Int)
  | error (message : String) (id : Option Int)
deriving DecidableEq, Repr

structure StreamSt where
  store : Store
  trace : List StreamEvent
  writeIdx : Nat
  hasEnded : Bool
  ended : Bool
  invokedModel : Option String
deriving DecidableEq, Repr

/-- Does the write attempt with ordinal `idx` succeed? -/
def writeOk (env : StreamEnv) (idx : Nat) : Bool :=
  match env.deadFrom with
  | none => true
  | some d => idx < d

/-- A successful `reply.raw.write`: the event lands on the trace. -/
def writeEvt (st : StreamSt) (e : StreamEvent) : StreamSt :=
  { st with writeIdx := st.writeIdx + 1, trace := st.trace ++ [e] }

/-- A throwing `reply.raw.write`: the attempt ordinal still advances. -/
def writeSkip (st : StreamSt) : StreamSt :=
  { st with writeIdx := st.writeIdx + 1 }

/-- One write attempt whose outcome the code ignores. -/
def wAttempt (env : StreamEnv) (st : StreamSt) (e : StreamEvent) : StreamSt :=
  if writeOk env st.writeIdx then writeEvt st e else writeSkip st

/-- `reply.raw.end(); hasEnded = true;`. -/
def doEnd (st : StreamSt) : StreamSt := { st with ended := true, hasEnded := true }

inductive LoopExit where
  | normal
  | thrown
deriving DecidableEq, Repr

/-- The `for await` chunk loop: skip blank fragments, accumulate, forward;
a failed chunk write runs the inner catch (best-effort `error` frame plus
`end`) and rethrows. -/
def streamLoop (env : StreamEnv) (genId : Int) :
    List String → StreamSt → String → StreamSt × String × LoopExit
  | [], st, acc => (st, acc, .normal)
  | chunk :: rest, st, acc =>
    if st.hasEnded then (st, acc, .normal)
    else if trimDoc (dstr chunk) = [] then streamLoop env genId rest st acc
    else if writeOk env st.writeIdx then
      streamLoop env genId rest (writeEvt st (.streaming genId chunk)) (acc ++ chunk)
    else if (writeSkip st).hasEnded then (writeSkip st, acc ++ chunk, .thrown)
    else if writeOk env (writeSkip st).writeIdx then
      (doEnd (writeEvt (writeSkip st) (.error "数据传输过程中断" (some genId))),
       acc ++ chunk, .thrown)
    else (writeSkip (writeSkip st), acc ++ chunk, .thrown)

/-- The `catch (streamError)` handler (line 625): a best-effort `error`
frame without ending the response, then rethrow. -/
def streamErrorCatch (env : StreamEnv) (genId : Int) (st : StreamSt) : StreamSt :=
  if st.hasEnded then st
  else wAttempt env st (.error "流处理错误" (some genId))

/-- The big `catch (error)` (line 730) around the provider section: when
the response is still open, write an `error` frame and end; a throwing
write escapes to the outer catch (`LoopExit.thrown`). -/
def bigCatch (env : StreamEnv) (genId : Int) (st : StreamSt) :
    StreamSt × LoopExit :=
  if st.hasEnded then (st, .normal)
  else if writeOk env st.writeIdx then
    (doEnd (writeEvt st (.error "生成SVG时出错" (some genId))), .normal)
  else (writeSkip st, .thrown)

/-- The `finally` block: if no terminal write ever ended the response, a
last-resort `error` frame and `end`, with failures swallowed. -/
def finallyBlock (env : StreamEnv) (st : StreamSt) : StreamSt :=
  if !st.hasEnded && !st.ended then
    if writeOk env st.writeIdx then
      { writeEvt st (.error "生成过程意外中断" none) with ended := true }
    else writeSkip st
  else st

/-- The outer `catch` (line 747) followed by `finally`. -/
def outerCatch (env : StreamEnv) (st : StreamSt) : StreamSt :=
  finallyBlock env
    (if st.hasEnded then st
     else if writeOk env st.writeIdx then
       doEnd (writeEvt st (.error "生成SVG时出错" none))
     else writeSkip st)

/-- The generation row persisted at stream start (lines 339-352): the
recorded model name is selected from the thinking flag. -/
def mkStreamGeneration (genId : Int) (uid : Int) (data : SvgGenerationInput)
    (height : Option ℚ) (now : Nat) : GenerationRow :=
  { id := genId, userId := uid, inputContent := data.inputContent,
    style := data.style, aspectRatio := data.aspectRatio,
    configWidth := 800, configHeight := height,
    configAspectRatio := data.aspectRatio.getD "1:1",
    configImage := data.image, configFileContent := data.fileContent,
    modelNames := [if data.isThinking == some "thinking" then
        "claude-3-7-sonnet-thinking-all" else "claude-3-7-sonnet-all"],
    title := none, isPublic := false, shareToken := none,
    createdAt := now, updatedAt := now }

def storeAddGen (st : Store) (g : GenerationRow) : Store :=
  { st with generations := st.generations ++ [g], nextGenId := st.nextGenId + 1 }

/-- The final version row persisted after the stream completes (lines
700-715): sanitized content, raw accumulated text in the history entry. -/
def mkFinalVersion (verId : Int) (genId : Int) (acc : String) (uid : Int)
    (now : Nat) : VersionRow :=
  { id := verId, generationId := genId,
    svgContent := cleanSvgContent (dstr acc),
    svgModifyList := [{ content := dstr acc, timestamp := now, editedBy := uid }],
    versionNumber := 1, isAiGenerated := true, createdAt := now,
    lastEditedAt := none, lastEditedBy := none }

def storeAddVer (st : Store) (v : VersionRow) : Store :=
  { st with versions := st.versions ++ [v], nextVerId := st.nextVerId + 1 }

/-- The model actually handed to `streamText` (lines 436-439). -/
def currentModelOf (data : SvgGenerationInput) : String :=
  if data.isThinking == some "thinking" then "claude-3-7-sonnet-thinking-all"
  else "deepseek-chat"

/-- Tail of the success path: the `completed` frame was written, the final
version row is inserted (line 700), the response is ended (lines 718-721),
and only then the credit-decrement `user.update` runs (lines 723-729).  A
rejected decrement is caught by the big catch (line 730), which — the
response having already ended — writes nothing further. -/
def finishStream (env : StreamEnv) (st1 : StreamSt) (gen : GenerationRow)
    (userId : Int) (acc : String) (now : Nat) : StreamSt × LoopExit :=
  let st2 := writeEvt st1 (.completed gen.id)
  let st3 := { st2 with
    store := storeAddVer st2.store
      (mkFinalVersion st2.store.nextVerId gen.id acc userId now) }
  let st4 := if st3.hasEnded then st3 else doEnd st3
  if env.decrementOk then
    ({ st4 with store := decrementCredits st4.store userId }, .normal)
  else
    bigCatch env gen.id st4

/-- The inner `try` around the provider call, the chunk loop, the
`completed` frame, the version insert, `end`, and the credit decrement. -/
def innerTry (env : StreamEnv) (st : StreamSt) (gen : GenerationRow)
    (userId : Int) (data : SvgGenerationInput) (now : Nat) :
    StreamSt × LoopExit :=
  if !env.providerCallOk then
    if ({ st with invokedModel := some (currentModelOf data) } : StreamSt).hasEnded then
      ({ st with invokedModel := some (currentModelOf data) }, .normal)
    else if writeOk env st.writeIdx then
      (doEnd (writeEvt { st with invokedModel := some (currentModelOf data) }
        (.error "所有可用模型都无法生成SVG" (some gen.id))), .normal)
    else
      bigCatch env gen.id (writeSkip { st with invokedModel := some (currentModelOf data) })
  else
    match streamLoop env gen.id env.chunks
        { st with invokedModel := some (currentModelOf data) } "" with
    | (st1, _, .thrown) => bigCatch env gen.id (streamErrorCatch env gen.id st1)
    | (st1, acc, .normal) =>
      if env.streamThrows then
        bigCatch env gen.id (streamErrorCatch env gen.id st1)
      else if !(writeOk env st1.writeIdx) then
        bigCatch env gen.id
          (if (writeSkip st1).hasEnded then writeSkip st1 else doEnd (writeSkip st1))
      else if !env.versionCreateOk then
        bigCatch env gen.id (writeEvt st1 (.completed gen.id))
      else
        finishStream env st1 gen userId acc now

/-- `createStream`. -/
def createStreamModel (env : StreamEnv) (store : Store) (userId : Int)
    (data : SvgGenerationInput) (now : Nat) : StreamSt :=
  let st0 : StreamSt :=
    { store := store, trace := [], writeIdx := 0, hasEnded := false,
      ended := false, invokedModel := none }
  match createCheck store userId with
  | .error _ => outerCatch env st0
  | .ok _ =>
    if !env.genCreateOk then outerCatch env st0
    else
      let height := resolveHeight data
      let gen := mkStreamGeneration store.nextGenId userId data height now
      let st1 := { st0 with store := storeAddGen store gen }
      if !(writeOk env st1.writeIdx) then
        finallyBlock env { writeSkip st1 with hasEnded := true }
      else
        match innerTry env (writeEvt st1 (.started gen.id)) gen userId data now with
        | (st3, .normal) => finallyBlock env st3
        | (st3, .thrown) => outerCatch env st3

/-!  ### Trace observations  -/

def isStarted : StreamEvent → Bool
  | .started _ => true
  | _ => false

def isStreamingEvt : StreamEvent → Bool
  | .streaming _ _ => true
  | _ => false

def isTerminal : StreamEvent → Bool
  | .completed _ => true
  | .error _ _ => true
  | _ => false

def startedCount (tr : List StreamEvent) : Nat := (tr.filter isStarted).length

def terminalCount (tr : List StreamEvent) : Nat := (tr.filter isTerminal).length

/-- Versions stored for a given generation id. -/
def versionsFor (st : Store) (gid : Int) : List VersionRow :=
  st.versions.filter (fun v => v.generationId == gid)

/-- The provider fragments the loop keeps: blank chunks are skipped. -/
def keptChunks (chunks : List String) : List String :=
  chunks.filter (fun c => !(trimDoc (dstr c)).isEmpty)

/-!  ## Provider-error classification (`parseAIError`)

Provider error values are modelled as JavaScript values.  `jerror` marks a
value for which `instanceof Error` holds (its extra fields are never read
by the source, which returns `.message` for such values without inspecting
nested shapes). -/

inductive JSVal where
  | jnull
  | jundefined
  | jbool (b : Bool)
  | jnum (q : ℚ)
  | jstr (s : String)
  | jarr (elems : List JSVal)
  | jobj (fields : List (String × JSVal))
  | jerror (message : String)

/-- `null`/`undefined`. -/
def nullish : JSVal → Bool
  | .jnull => true
  | .jundefined => true
  | _ => false

/-- JavaScript truthiness. -/
def truthy : JSVal → Bool
  | .jnull => false
  | .jundefined => false
  | .jbool b => b
  | .jnum q => !(q == 0)
  | .jstr s => !(s == "")
  | .jarr _ => true
  | .jobj _ => true
  | .jerror _ => true

/-- `typeof v === "object"` (true for objects, arrays and `null`). -/
def typeofObject : JSVal → Bool
  | .jobj _ => true
  | .jarr _ => true
  | .jnull => true
  | _ => false

def lookupField : List (String × JSVal) → String → Option JSVal
  | [], _ => none
  | (k, v) :: fs, key => if k == key then some v else lookupField fs key

/-- Property read on a non-nullish value: missing properties (and any
property of a primitive or array, none of which the source reads) are
`undefined`. -/
def getFieldSafe (v : JSVal) (k : String) : JSVal :=
  match v with
  | .jobj fs => (lookupField fs k).getD .jundefined
  | .jerror m => if k == "message" then .jstr m else .jundefined
  | _ => .jundefined

/-- Optional-chaining step `v?.k`. -/
def optGet (v : JSVal) (k : String) : JSVal :=
  if nullish v then .jundefined else getFieldSafe v k

/-- `String(v)` for the values reaching the conversions in the source. -/
def jsToString : JSVal → String
  | .jnull => "null"
  | .jundefined => "undefined"
  | .jbool b => if b then "true" else "false"
  | .jnum q => if q.den == 1 then toString q.num else toString q
  | .jstr s => s
  | .jarr _ => ""
  | .jobj _ => "[object Object]"
  | .jerror m => "Error: " ++ m

/-!  A small `JSON.parse` model (objects, arrays, strings with the common
escapes, decimal numbers without exponents, literals).  Structured on
explicit fuel; the initial fuel is generous enough for any input. -/

def jpSkipWs (s : List Char) : List Char := s.dropWhile wsp

def jsonString : List Char → Option (String × List Char)
  | [] => none
  | '"' :: rest => some ("", rest)
  | '\\' :: e :: rest =>
    let esc : Option Char :=
      if e == '"' then some '"'
      else if e == '\\' then some '\\'
      else if e == '/' then some '/'
      else if e == 'n' then some '\n'
      else if e == 't' then some '\t'
      else if e == 'r' then some '\r'
      else none
    match esc with
    | none => none
    | some c => (jsonString rest).map (fun (s, r) => (String.mk (c :: s.toList), r))
  | c :: rest => (jsonString rest).map (fun (s, r) => (String.mk (c :: s.toList), r))

def jsonNumChars (c : Char) : Bool :=
  c.isDigit || c == '-' || c == '+' || c == '.'

def jsonNumVal (l : List Char) : Option ℚ :=
  match l with
  | '-' :: r => (parseDecimal r).map (fun q => -q)
  | t => parseDecimal t

mutual

def jsonVal : Nat → List Char → Option (JSVal × List Char)
  | 0, _ => none
  | fuel + 1, s =>
    match jpSkipWs s with
    | [] => none
    | c :: cs =>
      if c == '{' then jsonObjFields fuel (jpSkipWs cs) []
      else if c == '[' then jsonArrElems fuel (jpSkipWs cs) []
      else if c == '"' then (jsonString cs).map (fun (str, r) => (.jstr str, r))
      else if c == 't' then
        if isPrefixBy csEq (dstr "rue") cs then some (.jbool true, cs.drop 3) else none
      else if c == 'f' then
        if isPrefixBy csEq (dstr "alse") cs then some (.jbool false, cs.drop 4) else none
      else if c == 'n' then
        if isPrefixBy csEq (dstr "ull") cs then some (.jnull, cs.drop 3) else none
      else
        let numPart := (c :: cs).takeWhile jsonNumChars
        let rest := (c :: cs).dropWhile jsonNumChars
        (jsonNumVal numPart).map (fun q => (.jnum q, rest))

def jsonObjFields : Nat → List Char → List (String × JSVal) →
    Option (JSVal × List Char)
  | 0, _, _ => none
  | _ + 1, [], _ => none
  | fuel + 1, c :: cs, acc =>
    if c == '}' then some (.jobj acc.reverse, cs)
    else if c == '"' then
      match jsonString cs with
      | none => none
      | some (key, r1) =>
        match jpSkipWs r1 with
        | ':' :: r2 =>
          match jsonVal fuel (jpSkipWs r2) with
          | none => none
          | some (v, r3) =>
            match jpSkipWs r3 with
            | ',' :: r4 => jsonObjFields fuel (jpSkipWs r4) ((key, v) :: acc)
            | '}' :: r4 => some (.jobj ((key, v) :: acc).reverse, r4)
            | _ => none
        | _ => none
    else none

def jsonArrElems : Nat → List Char → List JSVal → Option (JSVal × List Char)
  | 0, _, _ => none
  | _ + 1, [], _ => none
  | fuel + 1, c :: cs, acc =>
    if c == ']' then some (.jarr acc.reverse, cs)
    else
      match jsonVal fuel (c :: cs) with
      | none => none
      | some (v, r1) =>
        match jpSkipWs r1 with
        | ',' :: r2 => jsonArrElems fuel (jpSkipWs r2) (v :: acc)
        | ']' :: r2 => some (.jarr (v :: acc).reverse, r2)
        | _ => none

end

def jsonParse (s : String) : Option JSVal :=
  match jsonVal (4 * s.length + 16) s.toList with
  | some (v, rest) => if jpSkipWs rest = [] then some v else none
  | none => none

/-- The canned replacement used when a provider message mentions
`无可用渠道`. -/
def channelUnavailableMsg : String := "AI 模型暂时不可用，请稍后再试或选择其他模型"

def containsChannelUnavailable (m : String) : Bool :=
  containsBy csEq (dstr "无可用渠道") (dstr m)

def routeMsg (m : String) : String :=
  if containsChannelUnavailable m then channelUnavailableMsg else m

/-- `error.name === "AI_RetryError"`. -/
def nameIsRetryError (e : JSVal) : Bool :=
  match getFieldSafe e "name" with
  | .jstr s => s == "AI_RetryError"
  | _ => false

/-- The `try` body of `parseAIError`.  A thrown `TypeError` (property read
on a nullish value) carries the `errorMessage` current at the throw site,
which the outer catch returns. -/
def parseAIErrorBody (e : JSVal) : Except String String := do
  let defaultMsg := "当前无可用模型，请稍后重试"
  match e with
  | .jerror m => return m
  | .jobj _ | .jarr _ => do
    let errorMessage :=
      if truthy (getFieldSafe e "message") then jsToString (getFieldSafe e "message")
      else defaultMsg
    if nameIsRetryError e then
      let m1 := optGet (optGet (optGet (getFieldSafe e "lastError") "data") "error") "message"
      if truthy m1 then return routeMsg (jsToString m1)
      match getFieldSafe e "errors" with
      | .jarr (f0 :: _) =>
        if nullish f0 then throw errorMessage
        else
          let m2 := optGet (optGet (getFieldSafe f0 "data") "error") "message"
          if truthy m2 then return routeMsg (jsToString m2)
          let rb := getFieldSafe f0 "responseBody"
          if truthy rb then
            match jsonParse (jsToString rb) with
            | some rd =>
              if nullish rd then pure ()
              else
                let m3 := optGet (getFieldSafe rd "error") "message"
                if truthy m3 then return routeMsg (jsToString m3)
            | none => pure ()
          else pure ()
      | _ => pure ()
    let m4 := optGet (optGet (getFieldSafe e "data") "error") "message"
    if truthy m4 then return routeMsg (jsToString m4)
    let d := getFieldSafe e "data"
    if truthy d && typeofObject d then
      if truthy (getFieldSafe d "message") then
        return jsToString (getFieldSafe d "message")
      else return errorMessage
    else return errorMessage
  | _ => return "当前无可用模型，请稍后重试"

/-- `parseAIError`: total classification; the outer catch returns the
`errorMessage` accumulated so far. -/
def parseAIError (e : JSVal) : String :=
  match parseAIErrorBody e with
  | .ok s => s
  | .error s => s

/-!  ## Edit iteration and concrete fixtures  -/

/-- An edit request: new content, editing user, timestamp. -/
abbrev EditReq := Doc × Int × Nat

/-- One `updateSvgVersion` call; a failed call leaves the store as is. -/
def runEdit (st : Store) (vid : Int) (e : EditReq) : Store :=
  match updateSvgVersion st vid e.1 e.2.1 e.2.2 with
  | .ok (st', _) => st'
  | .error _ => st

def runEdits (st : Store) (vid : Int) (es : List EditReq) : Store :=
  es.foldl (fun s e => runEdit s vid e) st

/-- The history record `updateSvgVersion` builds for an edit request. -/
def mkEditRecord (e : EditReq) : SvgModifyRecord :=
  { content := cleanSvgContent e.1, timestamp := e.2.2, editedBy := e.2.1 }

/-- Fixture: a user with three credits. -/
def wUser : UserRow := { id := 7, remainingCredits := 3 }

def wStore : Store :=
  { users := [wUser], generations := [], versions := [],
    nextGenId := 1, nextVerId := 1 }

def wStoreZero : Store :=
  { users := [{ id := 7, remainingCredits := 0 }], generations := [],
    versions := [], nextGenId := 1, nextVerId := 1 }

def wReq : SvgGenerationInput :=
  { inputContent := "mountain sunset", style := some "minimalist",
    aspectRatio := some "16:9", isThinking := none, type := none,
    image := none, fileContent := none }

def wEnvOk : StreamEnv :=
  { genCreateOk := true, providerCallOk := true,
    chunks := ["<svg xmlns=\"http://www.w3.org/2000/svg\">", "<rect/></svg>"],
    streamThrows := false, versionCreateOk := true, decrementOk := true,
    deadFrom := none }

def wEnvProviderFail : StreamEnv := { wEnvOk with providerCallOk := false }

def wEnvStreamThrow : StreamEnv := { wEnvOk with streamThrows := true }

/-- Fixture: everything succeeds except the credit-decrement update. -/
def wEnvDecFail : StreamEnv := { wEnvOk with decrementOk := false }

/-- Fixture for the edit-history claim: one stored version, empty history. -/
def wVersion : VersionRow :=
  { id := 1, generationId := 1, svgContent := [], svgModifyList := [],
    versionNumber := 1, isAiGenerated := true, createdAt := 0,
    lastEditedAt := none, lastEditedBy := none }

def wStoreV : Store :=
  { users := [], generations := [], versions := [wVersion],
    nextGenId := 2, nextVerId := 2 }

/-- Eleven concrete sequential edits. -/
def wEdits : List EditReq :=
  (List.range 11).map (fun i => (([] : Doc), (5 : Int), i))

/-- Fixture for the transaction claim: a single credit. -/
def wStoreOne : Store :=
  { users := [{ id := 1, remainingCredits := 1 }], generations := [],
    versions := [], nextGenId := 1, nextVerId := 1 }

/-- Fixture generation row for the visibility claim. -/
def wGen : GenerationRow :=
  { id := 1, userId := 7, inputContent := "x", style := none,
    aspectRatio := none, configWidth := 800, configHeight := some 800,
    configAspectRatio := "1:1", configImage := none,
    configFileContent := none, modelNames := ["claude-3-7-sonnet-all"],
    title := none, isPublic := false, shareToken := none,
    createdAt := 0, updatedAt := 0 }

def wStoreG : Store :=
  { users := [wUser], generations := [wGen], versions := [wVersion],
    nextGenId := 2, nextVerId := 2 }

/-!  # Theorems  -/

/-- The empty document fails the well-formedness check, so a document
passing the check is non-empty. -/
theorem isValidFullSvg_ne_nil {s : Doc} (h : isValidFullSvg s = true) :
    s ≠ [] := by
  intro hs
  subst hs
  exact absurd h (by decide)

set_option maxRecDepth 40000 in
/-- The fallback document for empty input passes the check. -/
theorem defaultSvg_empty_valid :
    isValidFullSvg (getDefaultSvg (dstr "无法解析内容")) = true := by decide

set_option maxRecDepth 40000 in
/-- The fallback document for unparseable input passes the check. -/
theorem defaultSvg_failed_valid :
    isValidFullSvg (getDefaultSvg (dstr "解析失败")) = true := by decide

/-- The leaf-wrapping tail of the sanitizer always yields a document that
passes the check. -/
theorem cleanLeafOrDefault_valid (cleaned : Doc) :
    isValidFullSvg (cleanLeafOrDefault cleaned) = true := by
  unfold cleanLeafOrDefault
  split
  · split
    · assumption
    · exact defaultSvg_failed_valid
  · exact defaultSvg_failed_valid

/-- The open-tag stage either yields a document passing the check or takes
the truncated-tag repair branch, returning the fragment with `</svg>`
appended, unchecked. -/
theorem cleanOpenTag_valid_or_repair (cleaned : Doc) :
    isValidFullSvg (cleanOpenTag cleaned) = true ∨
    ∃ t, openFragment cleaned = some t ∧
      containsBy csEq (dstr "</svg>") t = false ∧
      cleanOpenTag cleaned = t ++ dstr "</svg>" := by
  unfold cleanOpenTag
  cases hof : openFragment cleaned with
  | none => exact Or.inl (cleanLeafOrDefault_valid cleaned)
  | some t =>
    by_cases hc : containsBy csEq (dstr "</svg>") t = false
    · simp only [hc, if_pos rfl]
      exact Or.inr ⟨t, rfl, hc, rfl⟩
    · simp only [if_neg hc]
      cases hfi : findIdxBy csEq (dstr "</svg>") t with
      | none => exact Or.inl (cleanLeafOrDefault_valid cleaned)
      | some k =>
        simp only []
        split
        · split
          · left; assumption
          · exact Or.inl (cleanLeafOrDefault_valid cleaned)
        · exact Or.inl (cleanLeafOrDefault_valid cleaned)

/-- C1 (amended): `cleanSvgContent` is total and never yields an empty
document; its result passes the well-formedness check on every branch
except the truncated-tag repair branch, which appends `</svg>` to the
open-tag fragment without re-validation. -/
theorem cleanSvgContent_total_and_wellformed (s : Doc) :
    cleanSvgContent s ≠ [] ∧
    (isValidFullSvg (cleanSvgContent s) = true ∨
     ∃ t, openFragment (trimDoc (stripEndFence (stripFences s))) = some t ∧
       containsBy csEq (dstr "</svg>") t = false ∧
       cleanSvgContent s = t ++ dstr "</svg>") := by
  have main :
      isValidFullSvg (cleanSvgContent s) = true ∨
      ∃ t, openFragment (trimDoc (stripEndFence (stripFences s))) = some t ∧
        containsBy csEq (dstr "</svg>") t = false ∧
        cleanSvgContent s = t ++ dstr "</svg>" := by
    unfold cleanSvgContent
    split
    · exact Or.inl defaultSvg_empty_valid
    · split
      · left; assumption
      · split
        · rename_i m _
          split
          · left; assumption
          · exact cleanOpenTag_valid_or_repair _
        · exact cleanOpenTag_valid_or_repair _
  refine ⟨?_, main⟩
  rcases main with hv | ⟨t, _, _, he⟩
  · exact isValidFullSvg_ne_nil hv
  · rw [he]
    intro h
    have := congrArg List.length h
    simp [List.length_append, dstr] at this


set_option maxRecDepth 40000 in
/-- C1 counterexample: on the truncated input `<svg><svg>` the sanitizer
takes the repair branch and returns `<svg><svg></svg>`, which fails the
well-formedness check (two `<svg` occurrences after namespace repair). -/
theorem cleanSvgContent_repair_counterexample :
    cleanSvgContent (dstr "<svg><svg>") = dstr "<svg><svg></svg>" ∧
    isValidFullSvg (cleanSvgContent (dstr "<svg><svg>")) = false := by
  constructor <;> decide

/-- The kernel-evaluable multiplication is ordinary multiplication. -/
theorem jsMul_eq_mul (x y : ℚ) : jsMul (some x) (some y) = some (x * y) := by
  show some (Rat.divInt (x.num * y.num) ((x.den : Int) * (y.den : Int))) = some (x * y)
  rw [Rat.divInt_eq_div]
  push_cast
  rw [← div_mul_div_comm, Rat.num_div_den, Rat.num_div_den]

/-- The kernel-evaluable division is ordinary division. -/
theorem jsDiv_eq_div (x y : ℚ) (h : y ≠ 0) :
    jsDiv (some x) (some y) = some (x / y) := by
  have hy : (y.num : ℚ) ≠ 0 := by simpa [Rat.num_ne_zero] using h
  have hd : ((x.den : ℚ)) ≠ 0 := Nat.cast_ne_zero.mpr x.den_nz
  have hyd : ((y.den : ℚ)) ≠ 0 := Nat.cast_ne_zero.mpr y.den_nz
  have hxn : (x.num : ℚ) = x * x.den := (div_eq_iff hd).mp (Rat.num_div_den x)
  have hyn : (y.num : ℚ) = y * y.den := (div_eq_iff hyd).mp (Rat.num_div_den y)
  show (if (y == 0) = true then none
        else some (Rat.divInt (x.num * (y.den : Int)) ((x.den : Int) * y.num)))
      = some (x / y)
  rw [if_neg (by simpa using h), Rat.divInt_eq_div]
  push_cast
  refine congrArg some ?_
  rw [div_eq_div_iff (mul_ne_zero hd hy) h, hxn, hyn]
  ring

/-- The kernel-evaluable witness for jsDiv: a trivial usage at `1 / 2`. -/
theorem jsDiv_eq_div_witness : jsDiv (some 1) (some 2) = some (1 / 2) :=
  jsDiv_eq_div 1 2 (by norm_num)

/-- The kernel-evaluable rounding is the floor of `q + 1/2`. -/
theorem jsRound_eq_floor (q : ℚ) :
    jsRound (some q) = some ((⌊q + 1 / 2⌋ : ℤ) : ℚ) := by
  have hd : ((q.den : ℚ)) ≠ 0 := Nat.cast_ne_zero.mpr q.den_nz
  have hqn : (q.num : ℚ) = q * q.den := (div_eq_iff hd).mp (Rat.num_div_den q)
  have key : Rat.divInt (2 * q.num + (q.den : Int)) (2 * (q.den : Int)) = q + 1 / 2 := by
    rw [Rat.divInt_eq_div]
    push_cast
    field_simp
    linear_combination (4 : ℚ) * hqn
  show some (((Rat.divInt (2 * q.num + (q.den : Int)) (2 * (q.den : Int))).floor : ℚ))
      = some ((⌊q + 1 / 2⌋ : ℤ) : ℚ)
  rw [key]
  rfl

/-- C5 (code bug): for non-numeric components `Number` yields `NaN`,
`NaN <= 0` is false, and the function returns `Math.round(NaN) = NaN`
instead of the documented square fallback `800`; numeric ratios follow
`round(800*H/W)` and zero/negative/missing inputs do fall back to 800. -/
theorem calculateHeight_nan_on_non_numeric :
    calculateHeightFromAspectRatio (dstr "abc:def") = none ∧
    calculateHeightFromAspectRatio (dstr "16:9") = some 450 ∧
    calculateHeightFromAspectRatio (dstr "4:3") = some 600 ∧
    calculateHeightFromAspectRatio (dstr "0:5") = some 800 ∧
    calculateHeightFromAspectRatio (dstr "-16:9") = some 800 ∧
    calculateHeightFromAspectRatio (dstr "") = some 800 := by
  refine ⟨?_, ?_, ?_, ?_, ?_, ?_⟩ <;> decide

/-!  ### Edit-history ring (C6)  -/

/-- The history push is a `take 10` of the cons when the stored history is
within the bound. -/
theorem pushModifyRecord_eq_take (r : SvgModifyRecord)
    (l : List SvgModifyRecord) (h : l.length ≤ 10) :
    pushModifyRecord r l = (r :: l).take 10 := by
  unfold pushModifyRecord
  split
  · rename_i hlen
    have h10 : l.length = 10 := by
      simp only [List.length_cons] at hlen
      omega
    rw [List.dropLast_eq_take]
    simp [h10]
  · rename_i hlen
    have hle : (r :: l).length ≤ 10 := by
      simp only [List.length_cons] at hlen ⊢
      omega
    rw [List.take_of_length_le hle]

theorem take_append_take {α : Type} (A B : List α) (n : Nat) :
    (A ++ B.take n).take n = (A ++ B).take n := by
  rw [List.take_append_eq_append_take, List.take_append_eq_append_take,
    List.take_take, Nat.min_eq_left (Nat.sub_le n A.length)]

theorem foldl_push_eq_take (es : List SvgModifyRecord) :
    ∀ l0 : List SvgModifyRecord, l0.length ≤ 10 →
      es.foldl (fun l r => pushModifyRecord r l) l0 =
        (es.reverse ++ l0).take 10 := by
  induction es with
  | nil =>
    intro l0 h
    simp [List.take_of_length_le h]
  | cons e es ih =>
    intro l0 h
    have hlen : (pushModifyRecord e l0).length ≤ 10 := by
      rw [pushModifyRecord_eq_take e l0 h]
      simp [List.length_take]
    simp only [List.foldl_cons]
    rw [ih (pushModifyRecord e l0) hlen, pushModifyRecord_eq_take e l0 h,
      take_append_take]
    simp [List.append_assoc]

/-- Replacing the first `p`-row by a fixed `p`-row commutes with `find?`. -/
theorem updateFirstBy_find?_const {α : Type} {p : α → Bool} {u : α}
    (hu : p u = true) :
    ∀ l : List α, (l.find? p).isSome = true →
      (updateFirstBy p (fun _ => u) l).find? p = some u := by
  intro l
  induction l with
  | nil => simp [List.find?]
  | cons x xs ih =>
    intro h
    cases hx : p x with
    | true =>
      simp only [updateFirstBy, hx, if_pos rfl]
      exact List.find?_cons_of_pos _ hu
    | false =>
      rw [List.find?_cons_of_neg _ (by simp [hx])] at h
      simp only [updateFirstBy, hx, Bool.false_eq_true, if_false]
      rw [List.find?_cons_of_neg _ (by simp [hx])]
      exact ih h

/-- One successful `updateSvgVersion` call, seen through `runEdit`. -/
theorem runEdit_found {st : Store} {vid : Int} {v : VersionRow}
    (hf : findVersion st vid = some v) (e : EditReq) :
    findVersion (runEdit st vid e) vid = some
      { v with svgContent := cleanSvgContent e.1,
               svgModifyList := pushModifyRecord (mkEditRecord e) v.svgModifyList,
               lastEditedAt := some e.2.2, lastEditedBy := some e.2.1 } := by
  have hpv : (v.id == vid) = true := by
    have := List.find?_some hf
    simpa using this
  have hsome : (st.versions.find? (fun x => x.id == vid)).isSome = true := by
    unfold findVersion at hf
    simp [hf]
  unfold runEdit updateSvgVersion
  simp only [hf]
  unfold findVersion
  exact updateFirstBy_find?_const (by simpa using hpv) st.versions hsome

/-- History contents after any sequence of edits on a version whose stored
history is within the bound. -/
theorem runEdits_history (es : List EditReq) :
    ∀ (st : Store) (vid : Int) (v : VersionRow),
      findVersion st vid = some v → v.svgModifyList.length ≤ 10 →
      ∃ v', findVersion (runEdits st vid es) vid = some v' ∧
        v'.svgModifyList =
          ((es.map mkEditRecord).reverse ++ v.svgModifyList).take 10 := by
  induction es with
  | nil =>
    intro st vid v hf hl
    exact ⟨v, hf, by simp [List.take_of_length_le hl]⟩
  | cons e es ih =>
    intro st vid v hf hl
    have hstep := runEdit_found hf e
    have hlen : (pushModifyRecord (mkEditRecord e) v.svgModifyList).length ≤ 10 := by
      rw [pushModifyRecord_eq_take _ _ hl]
      simp [List.length_take]
    obtain ⟨v', h1, h2⟩ := ih _ _ _ hstep hlen
    refine ⟨v', by simpa [runEdits, List.foldl_cons] using h1, ?_⟩
    rw [h2]
    simp only []
    rw [pushModifyRecord_eq_take _ _ hl, take_append_take]
    simp [List.append_assoc]

/-- C6: after eleven sequential `updateSvgVersion` calls on one version
(whose stored history is within the bound), the stored history holds
exactly the ten most recent edit records, newest first. -/
theorem updateSvgVersion_history_ring (st : Store) (vid : Int)
    (v : VersionRow) (es : List EditReq)
    (hf : findVersion st vid = some v)
    (hl : v.svgModifyList.length ≤ 10) (hn : es.length = 11) :
    ∃ v', findVersion (runEdits st vid es) vid = some v' ∧
      v'.svgModifyList = (es.map mkEditRecord).reverse.take 10 ∧
      v'.svgModifyList.length = 10 := by
  obtain ⟨v', h1, h2⟩ := runEdits_history es st vid v hf hl
  have hrl : 10 ≤ (es.map mkEditRecord).reverse.length := by
    simp [hn]
  refine ⟨v', h1, ?_, ?_⟩
  · rw [h2, List.take_append_of_le_length hrl]
  · rw [h2, List.take_append_of_le_length hrl]
    simp [List.length_take, hn]

/-- C6 witness: the concrete fixture satisfies the hypotheses and hence
the bounded-ring conclusion. -/
theorem updateSvgVersion_history_ring_witness :
    (findVersion wStoreV 1 = some wVersion ∧
      wVersion.svgModifyList.length ≤ 10 ∧ wEdits.length = 11) ∧
    ∃ v', findVersion (runEdits wStoreV 1 wEdits) 1 = some v' ∧
      v'.svgModifyList = (wEdits.map mkEditRecord).reverse.take 10 ∧
      v'.svgModifyList.length = 10 :=
  ⟨⟨rfl, by decide, by decide⟩,
    updateSvgVersion_history_ring wStoreV 1 wVersion wEdits rfl (by decide)
      (by decide)⟩

/-!  ### List update lemmas shared by the store operations  -/

/-- `updateFirstBy` with a `p`-preserving update commutes with `find?`. -/
theorem updateFirstBy_find?_map {α : Type} (p : α → Bool) (f : α → α)
    (hf : ∀ x, p x = true → p (f x) = true) :
    ∀ l : List α, (updateFirstBy p f l).find? p = (l.find? p).map f := by
  intro l
  induction l with
  | nil => simp [updateFirstBy, List.find?]
  | cons x xs ih =>
    cases hx : p x with
    | true =>
      simp [updateFirstBy, hx, List.find?_cons_of_pos _ (hf x hx),
        List.find?_cons_of_pos _ hx]
    | false =>
      simp only [updateFirstBy, hx, Bool.false_eq_true, if_false]
      rw [List.find?_cons_of_neg _ (by simp [hx]),
        List.find?_cons_of_neg _ (by simp [hx])]
      exact ih

/-- A successful `find?` splits the list, and `updateFirstBy` rewrites
exactly the found element in place. -/
theorem find?_split_updateFirstBy {α : Type} {p : α → Bool} (f : α → α) :
    ∀ {l : List α} {x : α}, l.find? p = some x →
      ∃ pre post, (∀ y ∈ pre, p y = false) ∧ l = pre ++ x :: post ∧
        updateFirstBy p f l = pre ++ f x :: post := by
  intro l
  induction l with
  | nil => intro x h; simp [List.find?] at h
  | cons a as ih =>
    intro x h
    cases ha : p a with
    | true =>
      rw [List.find?_cons_of_pos _ ha] at h
      obtain rfl : a = x := by injection h
      exact ⟨[], as, by simp, rfl, by simp [updateFirstBy, ha]⟩
    | false =>
      rw [List.find?_cons_of_neg _ (by simp [ha])] at h
      obtain ⟨pre, post, hpre, hsplit, hupd⟩ := ih h
      refine ⟨a :: pre, post, ?_, by simp [hsplit], ?_⟩
      · intro y hy
        rcases List.mem_cons.mp hy with rfl | hy
        · exact ha
        · exact hpre y hy
      · simp [updateFirstBy, ha, hupd]

/-!  ### Synchronous creation (C7)  -/

/-- C7 counterexample: the balance check of `create` runs outside the
`$transaction`.  With an initial balance of 1, two interleaved requests
both pass `createCheck` against the initial store, and running both
transaction bodies drives the balance to −1 — while any serial execution
of `create` leaves balance 0 and rejects the second request.  Hence
check + decrement + creation is not one atomic unit. -/
theorem create_check_outside_txn_counterexample :
    createCheck wStoreOne 1 = .ok { id := 1, remainingCredits := 1 } ∧
    balanceOf ((createTxn ((createTxn wStoreOne 1 wReq 0).1) 1 wReq 1).1) 1 =
      some (-1) ∧
    create wStoreOne 1 wReq 0 = .ok (createTxn wStoreOne 1 wReq 0) ∧
    balanceOf (createTxn wStoreOne 1 wReq 0).1 1 = some 0 ∧
    create (createTxn wStoreOne 1 wReq 0).1 1 wReq 1 =
      .error CreateErr.noCredits := by
  refine ⟨rfl, by decide, rfl, by decide, rfl⟩

/-- C7 (amended): within one request, `create` is all-or-nothing — a
failing check changes nothing and reports the check's error, and a
successful call decrements the balance by one and appends exactly the
generation row plus its placeholder version 1; the check itself, however,
reads the store before (outside) the atomic unit. -/
theorem create_check_then_txn (st : Store) (uid : Int)
    (data : SvgGenerationInput) (now : Nat) :
    (∀ e, create st uid data now = .error e → createCheck st uid = .error e) ∧
    (∀ st' g, create st uid data now = .ok (st', g) →
      ∃ u, findUser st uid = some u ∧ 0 < u.remainingCredits ∧
        balanceOf st' uid = some (u.remainingCredits - 1) ∧
        st'.generations = st.generations ++ [g] ∧
        ∃ v, st'.versions = st.versions ++ [v] ∧ v.generationId = g.id ∧
          v.versionNumber = 1 ∧
          v.svgContent = svgPlaceholder (resolveHeight data)) := by
  constructor
  · intro e he
    cases hcheck : createCheck st uid with
    | error e' =>
      have hcreate : create st uid data now = .error e' := by
        unfold create
        rw [hcheck]
      rw [hcreate] at he
      injection he with h
      subst h
      rfl
    | ok u =>
      have hcreate : create st uid data now = .ok (createTxn st uid data now) := by
        unfold create
        rw [hcheck]
      rw [hcreate] at he
      exact absurd he (by simp)
  · intro st' g hok
    cases hcheck : createCheck st uid with
    | error e' =>
      have hcreate : create st uid data now = .error e' := by
        unfold create
        rw [hcheck]
      rw [hcreate] at hok
      exact absurd hok (by simp)
    | ok u =>
      have hcreate : create st uid data now = .ok (createTxn st uid data now) := by
        unfold create
        rw [hcheck]
      rw [hcreate] at hok
      injection hok with hpair
      have hst' : (createTxn st uid data now).1 = st' := by rw [hpair]
      have hg : (createTxn st uid data now).2 = g := by rw [hpair]
      subst hst'
      subst hg
      unfold createCheck at hcheck
      cases hfind : findUser st uid with
      | none =>
        simp only [hfind] at hcheck
        exact absurd hcheck (by simp)
      | some u0 =>
        simp only [hfind] at hcheck
        by_cases hcred : u0.remainingCredits ≤ 0
        · rw [if_pos hcred] at hcheck
          exact absurd hcheck (by simp)
        · refine ⟨u0, rfl, by omega, ?_, ?_, ?_⟩
          · show balanceOf (createTxn st uid data now).1 uid =
              some (u0.remainingCredits - 1)
            unfold createTxn balanceOf findUser decrementCredits
            simp only []
            rw [updateFirstBy_find?_map (fun u : UserRow => u.id == uid)
              (fun u : UserRow => { u with remainingCredits := u.remainingCredits - 1 })
              (fun x hx => hx)]
            unfold findUser at hfind
            simp [hfind]
          · rfl
          · exact ⟨_, rfl, rfl, rfl, rfl⟩

/-- C7 witness: the amended contract instantiated at concrete stores. -/
theorem create_check_then_txn_witness :
    createCheck wStoreZero 7 = .error CreateErr.noCredits ∧
    (∃ u, findUser wStore 7 = some u ∧ 0 < u.remainingCredits ∧
      balanceOf (createTxn wStore 7 wReq 0).1 7 = some (u.remainingCredits - 1) ∧
      (createTxn wStore 7 wReq 0).1.generations =
        wStore.generations ++ [(createTxn wStore 7 wReq 0).2] ∧
      ∃ v, (createTxn wStore 7 wReq 0).1.versions = wStore.versions ++ [v] ∧
        v.generationId = (createTxn wStore 7 wReq 0).2.id ∧
        v.versionNumber = 1 ∧
        v.svgContent = svgPlaceholder (resolveHeight wReq)) :=
  ⟨(create_check_then_txn wStoreZero 7 wReq 0).1 CreateErr.noCredits rfl,
   (create_check_then_txn wStore 7 wReq 0).2 (createTxn wStore 7 wReq 0).1
     (createTxn wStore 7 wReq 0).2 rfl⟩

/-!  ### Visibility update (C10)  -/

/-- C10 counterexample: `updatePublicStatus` also writes the
ORM-maintained `updatedAt` column, so it does not modify only `isPublic`. -/
theorem updatePublicStatus_updatedAt_counterexample :
    ∃ st' g', updatePublicStatus wStoreG 1 true 5 = .ok (st', g') ∧
      g'.isPublic = true ∧ g'.updatedAt = 5 ∧ wGen.updatedAt = 0 :=
  ⟨_, _, rfl, rfl, rfl, rfl⟩

/-- C10 (amended): `updatePublicStatus` rewrites exactly the addressed
generation row, changing only `isPublic` and the ORM-maintained
`updatedAt`; users, versions and all other generation rows are unchanged,
and a missing id yields `NotFoundException` with no state change. -/
theorem updatePublicStatus_frame (st : Store) (gid : Int) (b : Bool)
    (now : Nat) :
    (updatePublicStatus st gid b now = .error "NotFoundException" ↔
      findGeneration st gid = none) ∧
    (∀ st' g', updatePublicStatus st gid b now = .ok (st', g') →
      st'.users = st.users ∧ st'.versions = st.versions ∧
      st'.nextGenId = st.nextGenId ∧ st'.nextVerId = st.nextVerId ∧
      ∃ g pre post, findGeneration st gid = some g ∧
        g' = { g with isPublic := b, updatedAt := now } ∧
        st.generations = pre ++ g :: post ∧
        st'.generations = pre ++ g' :: post) := by
  cases hf : findGeneration st gid with
  | none =>
    constructor
    · simp [updatePublicStatus, hf]
    · intro st' g' h
      simp [updatePublicStatus, hf] at h
  | some g =>
    constructor
    · simp [updatePublicStatus, hf]
    · intro st' g' h
      simp only [updatePublicStatus, hf] at h
      injection h with h1
      rw [Prod.mk.injEq] at h1
      obtain ⟨hst, hg⟩ := h1
      subst hst
      subst hg
      have hf' : st.generations.find? (fun x => x.id == gid) = some g := hf
      obtain ⟨pre, post, _, hl, hu⟩ := find?_split_updateFirstBy
        (fun _ => { g with isPublic := b, updatedAt := now }) hf'
      exact ⟨rfl, rfl, rfl, rfl, g, pre, post, rfl, rfl, hl, hu⟩

/-- C10 witness: the frame contract applied to the fixture store, with the
concrete successful result discharging the hypothesis. -/
theorem updatePublicStatus_frame_witness :
    ∃ st' g', updatePublicStatus wStoreG 1 true 5 = .ok (st', g') ∧
      (st'.users = wStoreG.users ∧ st'.versions = wStoreG.versions ∧
       st'.nextGenId = wStoreG.nextGenId ∧ st'.nextVerId = wStoreG.nextVerId ∧
       ∃ g pre post, findGeneration wStoreG 1 = some g ∧
         g' = { g with isPublic := true, updatedAt := 5 } ∧
         wStoreG.generations = pre ++ g :: post ∧
         st'.generations = pre ++ g' :: post) := by
  refine ⟨_, _, rfl, (updatePublicStatus_frame wStoreG 1 true 5).2 _ _ rfl⟩

/-!  ### Provider-error classification (C8)  -/

/-- C8 counterexample: with both a top-level `message` and a nested
`data.error.message` present, the classifier returns the nested message,
not the top-level one — so the plain message does not have priority. -/
theorem parseAIError_nested_overrides_top :
    parseAIError (.jobj [("message", .jstr "top-level message"),
      ("data", .jobj [("error", .jobj [("message", .jstr "nested message")])])])
      = "nested message" ∧
    ("nested message" : String) ≠ "top-level message" := by
  constructor
  · rfl
  · decide

/-- C8 (amended): the classifier is total; the nested shapes take
precedence over the plain top-level message, which only serves as the
non-generic fallback; an empty object maps to the generic fallback string
and an `Error` instance maps to its own message. -/
theorem parseAIError_priority (top nested : String) (h1 : nested ≠ "")
    (h2 : containsChannelUnavailable nested = false) :
    parseAIError (.jobj [("message", .jstr top),
      ("data", .jobj [("error", .jobj [("message", .jstr nested)])])]) = nested ∧
    parseAIError (.jobj []) = "当前无可用模型，请稍后重试" ∧
    (∀ m : String, parseAIError (.jerror m) = m) := by
  refine ⟨?_, rfl, fun m => rfl⟩
  have hb : (nested == "") = false := beq_eq_false_iff_ne.mpr h1
  simp [parseAIError, parseAIErrorBody, getFieldSafe, lookupField, optGet,
    nullish, truthy, nameIsRetryError, routeMsg, jsToString, hb, h2,
    pure, Except.pure, Bind.bind, Except.bind]

/-- C8 witness: the priority contract at concrete messages. -/
theorem parseAIError_priority_witness :
    ("nested provider outage" : String) ≠ "" ∧
    containsChannelUnavailable "nested provider outage" = false ∧
    (parseAIError (.jobj [("message", .jstr "top outage"),
      ("data", .jobj [("error", .jobj [("message", .jstr "nested provider outage")])])])
        = "nested provider outage" ∧
     parseAIError (.jobj []) = "当前无可用模型，请稍后重试" ∧
     (∀ m : String, parseAIError (.jerror m) = m)) :=
  ⟨by decide, by decide,
   parseAIError_priority "top outage" "nested provider outage" (by decide) (by decide)⟩

/-!  ### Streaming orchestrator lemmas  -/

theorem writeEvt_store (st : StreamSt) (e : StreamEvent) :
    (writeEvt st e).store = st.store := rfl

theorem writeSkip_store (st : StreamSt) : (writeSkip st).store = st.store := rfl

theorem doEnd_store (st : StreamSt) : (doEnd st).store = st.store := rfl

theorem wAttempt_store (env : StreamEnv) (st : StreamSt) (e : StreamEvent) :
    (wAttempt env st e).store = st.store := by
  unfold wAttempt
  split <;> rfl

/-- The chunk loop never touches the durable store. -/
theorem streamLoop_store (env : StreamEnv) (genId : Int) :
    ∀ (chunks : List String) (st : StreamSt) (acc : String),
      (streamLoop env genId chunks st acc).1.store = st.store := by
  intro chunks
  induction chunks with
  | nil => intro st acc; rfl
  | cons c cs ih =>
    intro st acc
    unfold streamLoop
    split_ifs with h1 h2 h3 h4 h5
    · rfl
    · exact ih st acc
    · rw [ih]
      rfl
    · rfl
    · rfl
    · rfl

/-- The stream-error catch never touches the durable store. -/
theorem streamErrorCatch_store (env : StreamEnv) (genId : Int) (st : StreamSt) :
    (streamErrorCatch env genId st).store = st.store := by
  unfold streamErrorCatch
  split
  · rfl
  · exact wAttempt_store env st _

/-- The big catch never touches the durable store. -/
theorem bigCatch_store (env : StreamEnv) (genId : Int) (st : StreamSt) :
    (bigCatch env genId st).1.store = st.store := by
  unfold bigCatch
  split_ifs <;> rfl

/-- The finally block never touches the durable store. -/
theorem finallyBlock_store (env : StreamEnv) (st : StreamSt) :
    (finallyBlock env st).store = st.store := by
  unfold finallyBlock
  split_ifs <;> rfl

/-- The outer catch never touches the durable store. -/
theorem outerCatch_store (env : StreamEnv) (st : StreamSt) :
    (outerCatch env st).store = st.store := by
  unfold outerCatch
  rw [finallyBlock_store]
  split_ifs <;> rfl

/-- Store effect of the success tail when the decrement update succeeds. -/
theorem finishStream_store_dec (env : StreamEnv) (st1 : StreamSt)
    (gen : GenerationRow) (uid : Int) (acc : String) (now : Nat)
    (hd : env.decrementOk = true) :
    (finishStream env st1 gen uid acc now).1.store =
      decrementCredits
        (storeAddVer st1.store (mkFinalVersion st1.store.nextVerId gen.id acc uid now))
        uid := by
  unfold finishStream
  simp only []
  rw [if_pos hd]
  split <;> rfl

/-- Store effect of the success tail when the decrement update is
rejected: the version row stays persisted and the balance is untouched. -/
theorem finishStream_store_nodec (env : StreamEnv) (st1 : StreamSt)
    (gen : GenerationRow) (uid : Int) (acc : String) (now : Nat)
    (hd : env.decrementOk = false) :
    (finishStream env st1 gen uid acc now).1.store =
      storeAddVer st1.store (mkFinalVersion st1.store.nextVerId gen.id acc uid now) := by
  unfold finishStream
  simp only []
  rw [if_neg (by simp [hd]), bigCatch_store]
  split <;> rfl

/-- Store effect of the inner try: either nothing, or — only when the
provider call succeeded, the stream did not throw and the version insert
succeeded — the final version insert, followed by the credit decrement
exactly when the decrement update itself succeeds. -/
theorem innerTry_store (env : StreamEnv) (st : StreamSt) (gen : GenerationRow)
    (uid : Int) (data : SvgGenerationInput) (now : Nat) :
    (innerTry env st gen uid data now).1.store = st.store ∨
    (env.providerCallOk = true ∧ env.streamThrows = false ∧
     env.versionCreateOk = true ∧
     ∃ acc,
       (env.decrementOk = true ∧
         (innerTry env st gen uid data now).1.store =
           decrementCredits
             (storeAddVer st.store
               (mkFinalVersion st.store.nextVerId gen.id acc uid now))
             uid) ∨
       (env.decrementOk = false ∧
         (innerTry env st gen uid data now).1.store =
           storeAddVer st.store
             (mkFinalVersion st.store.nextVerId gen.id acc uid now))) := by
  unfold innerTry
  cases hp : env.providerCallOk with
  | false =>
    left
    simp only [Bool.not_false]
    rw [if_pos (by trivial)]
    split_ifs
    · rfl
    · rfl
    · rw [bigCatch_store]
      rfl
  | true =>
    simp only [Bool.not_true]
    rw [if_neg (by simp)]
    have hloop := streamLoop_store env gen.id env.chunks
      { st with invokedModel := some (currentModelOf data) } ""
    rcases hres : streamLoop env gen.id env.chunks
        { st with invokedModel := some (currentModelOf data) } "" with ⟨st1, acc, ex⟩
    rw [hres] at hloop
    have hloop' : st1.store = st.store := hloop
    cases ex with
    | thrown =>
      left
      dsimp only
      rw [bigCatch_store, streamErrorCatch_store]
      exact hloop'
    | normal =>
      dsimp only
      cases hthrow : env.streamThrows with
      | true =>
        left
        rw [if_pos (by trivial), bigCatch_store, streamErrorCatch_store]
        exact hloop'
      | false =>
        rw [if_neg (by simp)]
        cases hw : writeOk env st1.writeIdx with
        | false =>
          left
          rw [if_pos (by trivial), bigCatch_store]
          split <;> exact hloop'
        | true =>
          rw [if_neg (by simp)]
          cases hver : env.versionCreateOk with
          | false =>
            left
            rw [if_pos (by trivial), bigCatch_store]
            exact hloop'
          | true =>
            right
            refine ⟨by trivial, by trivial, by trivial, acc, ?_⟩
            cases hd : env.decrementOk with
            | true =>
              left
              refine ⟨rfl, ?_⟩
              rw [if_neg (by simp),
                finishStream_store_dec env _ gen uid acc now hd, hloop']
            | false =>
              right
              refine ⟨rfl, ?_⟩
              rw [if_neg (by simp),
                finishStream_store_nodec env _ gen uid acc now hd, hloop']

/-- `createCheck` succeeds exactly on an existing user with positive
balance. -/
theorem createCheck_ok {st : Store} {uid : Int} {u : UserRow}
    (h : createCheck st uid = .ok u) :
    findUser st uid = some u ∧ 0 < u.remainingCredits := by
  unfold createCheck at h
  cases hf : findUser st uid with
  | none => rw [hf] at h; exact absurd h (by simp)
  | some u0 =>
    rw [hf] at h
    dsimp only at h
    by_cases hc : u0.remainingCredits ≤ 0
    · rw [if_pos hc] at h
      exact absurd h (by simp)
    · rw [if_neg hc] at h
      injection h with h
      subst h
      exact ⟨rfl, by omega⟩

/-- Store outcome of everything after the `started` frame: unchanged, or
— only when provider call, stream and version insert all succeeded — the
version insert, followed by the decrement exactly when the decrement
update itself succeeds. -/
theorem streamTail_store (env : StreamEnv) (st1 : StreamSt)
    (gen : GenerationRow) (uid : Int) (data : SvgGenerationInput) (now : Nat) :
    (match innerTry env (writeEvt st1 (.started gen.id)) gen uid data now with
      | (st3, LoopExit.normal) => finallyBlock env st3
      | (st3, LoopExit.thrown) => outerCatch env st3).store = st1.store ∨
    (env.providerCallOk = true ∧ env.streamThrows = false ∧
     env.versionCreateOk = true ∧
     ∃ acc,
       (env.decrementOk = true ∧
         (match innerTry env (writeEvt st1 (.started gen.id)) gen uid data now with
           | (st3, LoopExit.normal) => finallyBlock env st3
           | (st3, LoopExit.thrown) => outerCatch env st3).store =
         decrementCredits
           (storeAddVer st1.store
             (mkFinalVersion st1.store.nextVerId gen.id acc uid now))
           uid) ∨
       (env.decrementOk = false ∧
         (match innerTry env (writeEvt st1 (.started gen.id)) gen uid data now with
           | (st3, LoopExit.normal) => finallyBlock env st3
           | (st3, LoopExit.thrown) => outerCatch env st3).store =
         storeAddVer st1.store
           (mkFinalVersion st1.store.nextVerId gen.id acc uid now))) := by
  have hstore := innerTry_store env (writeEvt st1 (.started gen.id)) gen uid data now
  rcases hit : innerTry env (writeEvt st1 (.started gen.id)) gen uid data now
    with ⟨st3, ex⟩
  rw [hit] at hstore
  cases ex with
  | normal =>
    dsimp only
    rw [finallyBlock_store]
    rcases hstore with h | ⟨hp, ht, hv, acc, ⟨hd, h⟩ | ⟨hd, h⟩⟩
    · left; exact h
    · right; exact ⟨hp, ht, hv, acc, .inl ⟨hd, h⟩⟩
    · right; exact ⟨hp, ht, hv, acc, .inr ⟨hd, h⟩⟩
  | thrown =>
    dsimp only
    rw [outerCatch_store]
    rcases hstore with h | ⟨hp, ht, hv, acc, ⟨hd, h⟩ | ⟨hd, h⟩⟩
    · left; exact h
    · right; exact ⟨hp, ht, hv, acc, .inl ⟨hd, h⟩⟩
    · right; exact ⟨hp, ht, hv, acc, .inr ⟨hd, h⟩⟩

/-- Balance after the guarded decrement. -/
theorem balanceOf_decrement (s : Store) (uid : Int) {u : UserRow}
    (hu : findUser s uid = some u) :
    balanceOf (decrementCredits s uid) uid = some (u.remainingCredits - 1) := by
  unfold balanceOf findUser decrementCredits
  simp only []
  rw [updateFirstBy_find?_map (fun x : UserRow => x.id == uid)
    (fun x => { x with remainingCredits := x.remainingCredits - 1 })
    (fun x hx => hx)]
  unfold findUser at hu
  simp [hu]

/-- Store outcome of a whole streamed request: unchanged, generation row
only, or — only when provider call, stream and version insert all
succeeded for an authorized user — generation row plus final version,
with the decrement applied exactly when the decrement update itself
succeeds. -/
theorem createStreamModel_store_cases (env : StreamEnv) (store : Store)
    (uid : Int) (data : SvgGenerationInput) (now : Nat) :
    (createStreamModel env store uid data now).store = store ∨
    (createStreamModel env store uid data now).store =
      storeAddGen store
        (mkStreamGeneration store.nextGenId uid data (resolveHeight data) now) ∨
    (env.providerCallOk = true ∧ env.streamThrows = false ∧
     env.versionCreateOk = true ∧
     (∃ u, findUser store uid = some u ∧ 0 < u.remainingCredits) ∧
     ∃ acc,
       (env.decrementOk = true ∧
         (createStreamModel env store uid data now).store =
         decrementCredits
           (storeAddVer
             (storeAddGen store
               (mkStreamGeneration store.nextGenId uid data (resolveHeight data) now))
             (mkFinalVersion store.nextVerId store.nextGenId acc uid now))
           uid) ∨
       (env.decrementOk = false ∧
         (createStreamModel env store uid data now).store =
         storeAddVer
           (storeAddGen store
             (mkStreamGeneration store.nextGenId uid data (resolveHeight data) now))
           (mkFinalVersion store.nextVerId store.nextGenId acc uid now))) := by
  unfold createStreamModel
  cases hcheck : createCheck store uid with
  | error e =>
    left
    rw [outerCatch_store]
  | ok u =>
    obtain ⟨hfind, hpos⟩ := createCheck_ok hcheck
    dsimp only
    cases hgc : env.genCreateOk with
    | false =>
      left
      rw [if_pos (by trivial)]
      exact outerCatch_store env _
    | true =>
      rw [if_neg (by simp)]
      cases hw : writeOk env 0 with
      | false =>
        right; left
        rw [if_pos (by simp [hw])]
        exact finallyBlock_store env _
      | true =>
        rw [if_neg (by simp [hw])]
        rcases streamTail_store env
            { store := storeAddGen store
                (mkStreamGeneration store.nextGenId uid data (resolveHeight data) now),
              trace := [], writeIdx := 0, hasEnded := false, ended := false,
              invokedModel := none }
            (mkStreamGeneration store.nextGenId uid data (resolveHeight data) now)
            uid data now with h | ⟨hp, ht, hv, acc, ⟨hd, h⟩ | ⟨hd, h⟩⟩
        · right; left
          exact h
        · right; right
          exact ⟨hp, ht, hv, ⟨u, hfind, hpos⟩, acc, .inl ⟨hd, h⟩⟩
        · right; right
          exact ⟨hp, ht, hv, ⟨u, hfind, hpos⟩, acc, .inr ⟨hd, h⟩⟩

/-- C3 counterexample: when the credit-decrement update (lines 723-729)
is rejected after the version insert (line 700) succeeded, the request
ends with Version 1 persisted, the balance unchanged, and — the response
having already ended — a single `completed` terminal frame and no `error`
frame: the claimed iff fails in the persisted-without-decrement
direction. -/
theorem stream_decrement_fail_counterexample :
    (versionsFor (createStreamModel wEnvDecFail wStore 7 wReq 100).store 1).length
      = 1 ∧
    balanceOf (createStreamModel wEnvDecFail wStore 7 wReq 100).store 7 = some 3 ∧
    balanceOf wStore 7 = some 3 ∧
    terminalCount (createStreamModel wEnvDecFail wStore 7 wReq 100).trace = 1 ∧
    (createStreamModel wEnvDecFail wStore 7 wReq 100).trace.filter
      (fun e => isTerminal e && !isStreamingEvt e) =
      [.completed 1] := by
  exact ⟨rfl, rfl, rfl, rfl, rfl⟩

/-- C3 (amended): in the streaming path either nothing is persisted and
the balance is untouched; or — only when the provider call, the stream,
the version insert and the decrement update all succeeded for an
authorized user — version 1 is appended and the balance drops by exactly
one; or — when everything but the decrement update succeeded — version 1
is appended while the balance stays unchanged.  Failed generations
(provider error, timeout, stream or version-insert failure) consume no
credit, but a decrement implies a persisted version, not conversely. -/
theorem stream_credit_decrement_cases (env : StreamEnv)
    (store : Store) (uid : Int) (data : SvgGenerationInput) (now : Nat) :
    ((createStreamModel env store uid data now).store.versions = store.versions ∧
     balanceOf (createStreamModel env store uid data now).store uid =
       balanceOf store uid) ∨
    (env.providerCallOk = true ∧ env.streamThrows = false ∧
     env.versionCreateOk = true ∧ env.decrementOk = true ∧
     ∃ u acc, findUser store uid = some u ∧ 0 < u.remainingCredits ∧
       balanceOf (createStreamModel env store uid data now).store uid =
         some (u.remainingCredits - 1) ∧
       (createStreamModel env store uid data now).store.versions =
         store.versions ++
           [mkFinalVersion store.nextVerId store.nextGenId acc uid now]) ∨
    (env.providerCallOk = true ∧ env.streamThrows = false ∧
     env.versionCreateOk = true ∧ env.decrementOk = false ∧
     ∃ u acc, findUser store uid = some u ∧ 0 < u.remainingCredits ∧
       balanceOf (createStreamModel env store uid data now).store uid =
         balanceOf store uid ∧
       (createStreamModel env store uid data now).store.versions =
         store.versions ++
           [mkFinalVersion store.nextVerId store.nextGenId acc uid now]) := by
  rcases createStreamModel_store_cases env store uid data now with
    h | h | ⟨hp, ht, hv, ⟨u, hfind, hpos⟩, acc, ⟨hd, h⟩ | ⟨hd, h⟩⟩
  · left
    rw [h]
    exact ⟨rfl, rfl⟩
  · left
    rw [h]
    exact ⟨rfl, rfl⟩
  · right; left
    refine ⟨hp, ht, hv, hd, u, acc, hfind, hpos, ?_, ?_⟩
    · rw [h]
      exact balanceOf_decrement _ _ hfind
    · rw [h]
      rfl
  · right; right
    refine ⟨hp, ht, hv, hd, u, acc, hfind, hpos, ?_, ?_⟩
    · rw [h]
      rfl
    · rw [h]
      rfl

/-- C4 counterexample: a streamed request whose provider call fails leaves
a Generation row with no Version at all — the streaming path creates no
placeholder Version 1. -/
theorem stream_generation_without_version_counterexample :
    (createStreamModel wEnvProviderFail wStore 7 wReq 100).store.generations =
      [mkStreamGeneration 1 7 wReq (some 450) 100] ∧
    versionsFor (createStreamModel wEnvProviderFail wStore 7 wReq 100).store 1 = [] ∧
    (createStreamModel wEnvProviderFail wStore 7 wReq 100).store.versions = [] := by
  refine ⟨?_, rfl, rfl⟩
  rfl

/-- C4 (amended): the synchronous path creates the placeholder Version 1
together with the Generation; the streaming path creates the Generation
without any Version and appends Version 1 (with the sanitized final
content) only when the whole stream succeeds, so an errored stream leaves
the Generation with no Version. -/
theorem version1_lifecycle (store : Store) (uid : Int)
    (data : SvgGenerationInput) (now : Nat) :
    (∀ st' g, create store uid data now = .ok (st', g) →
      ∃ v, st'.versions = store.versions ++ [v] ∧ v.generationId = g.id ∧
        v.versionNumber = 1 ∧ v.svgContent = svgPlaceholder (resolveHeight data)) ∧
    (∀ env : StreamEnv,
      (createStreamModel env store uid data now).store.versions = store.versions ∨
      ∃ acc, (createStreamModel env store uid data now).store.versions =
        store.versions ++
          [mkFinalVersion store.nextVerId store.nextGenId acc uid now]) ∧
    (∀ env : StreamEnv,
      (createStreamModel env store uid data now).store.generations =
        store.generations ∨
      (createStreamModel env store uid data now).store.generations =
        store.generations ++
          [mkStreamGeneration store.nextGenId uid data (resolveHeight data) now]) := by
  refine ⟨?_, ?_, ?_⟩
  · intro st' g hok
    unfold create at hok
    cases hcheck : createCheck store uid with
    | error e => rw [hcheck] at hok; exact absurd hok (by simp)
    | ok u =>
      rw [hcheck] at hok
      injection hok with hpair
      have hst' : st' = (createTxn store uid data now).1 := by rw [hpair]
      have hg : g = (createTxn store uid data now).2 := by rw [hpair]
      subst hst'
      subst hg
      exact ⟨_, rfl, rfl, rfl, rfl⟩
  · intro env
    rcases createStreamModel_store_cases env store uid data now with
      h | h | ⟨_, _, _, _, acc, ⟨_, h⟩ | ⟨_, h⟩⟩
    · left; rw [h]
    · left; rw [h]; rfl
    · right
      exact ⟨acc, by rw [h]; rfl⟩
    · right
      exact ⟨acc, by rw [h]; rfl⟩
  · intro env
    rcases createStreamModel_store_cases env store uid data now with
      h | h | ⟨_, _, _, _, acc, ⟨_, h⟩ | ⟨_, h⟩⟩
    · left; rw [h]
    · right; rw [h]; rfl
    · right; rw [h]; rfl
    · right; rw [h]; rfl

/-- C4 witness: the synchronous conjunct applied at the fixture store. -/
theorem version1_lifecycle_witness :
    ∃ st' g, create wStore 7 wReq 0 = .ok (st', g) ∧
      ∃ v, st'.versions = wStore.versions ++ [v] ∧ v.generationId = g.id ∧
        v.versionNumber = 1 ∧ v.svgContent = svgPlaceholder (resolveHeight wReq) :=
  ⟨(createTxn wStore 7 wReq 0).1, (createTxn wStore 7 wReq 0).2, rfl,
    (version1_lifecycle wStore 7 wReq 0).1 (createTxn wStore 7 wReq 0).1
      (createTxn wStore 7 wReq 0).2 rfl⟩

/-- With no transport deadline every write attempt succeeds. -/
theorem writeOk_alive (env : StreamEnv) (hdead : env.deadFrom = none) :
    ∀ i, writeOk env i = true := by
  intro i
  unfold writeOk
  rw [hdead]

theorem startedCount_append (a b : List StreamEvent) :
    startedCount (a ++ b) = startedCount a + startedCount b := by
  unfold startedCount
  rw [List.filter_append, List.length_append]

theorem terminalCount_append (a b : List StreamEvent) :
    terminalCount (a ++ b) = terminalCount a + terminalCount b := by
  unfold terminalCount
  rw [List.filter_append, List.length_append]

theorem terminal_not_started (e : StreamEvent) (h : isTerminal e = true) :
    isStarted e = false := by
  cases e with
  | started gid => exact absurd h (by simp [isTerminal])
  | streaming g c => rfl
  | completed g => rfl
  | error m g => rfl

theorem startedCount_streamMap (g : Int) (l : List String) :
    startedCount (l.map (fun c => StreamEvent.streaming g c)) = 0 := by
  simp [startedCount, isStarted]

theorem terminalCount_streamMap (g : Int) (l : List String) :
    terminalCount (l.map (fun c => StreamEvent.streaming g c)) = 0 := by
  simp [terminalCount, isTerminal]

/-- With the transport alive the inner stream-error catch is exactly a
successful best-effort `error` write, without ending the response. -/
theorem streamErrorCatch_alive (env : StreamEnv) (genId : Int) (st : StreamSt)
    (hdead : env.deadFrom = none) (h : st.hasEnded = false) :
    streamErrorCatch env genId st =
      writeEvt st (.error "流处理错误" (some genId)) := by
  unfold streamErrorCatch wAttempt
  rw [if_neg (by simp [h]), if_pos (writeOk_alive env hdead st.writeIdx)]

/-- With the transport alive the big catch on an un-ended response writes
an `error` frame and ends. -/
theorem bigCatch_alive (env : StreamEnv) (genId : Int) (st : StreamSt)
    (hdead : env.deadFrom = none) (h : st.hasEnded = false) :
    bigCatch env genId st =
      (doEnd (writeEvt st (.error "生成SVG时出错" (some genId))), .normal) := by
  unfold bigCatch
  rw [if_neg (by simp [h]), if_pos (writeOk_alive env hdead st.writeIdx)]

/-- The big catch does nothing once the response has ended. -/
theorem bigCatch_ended (env : StreamEnv) (genId : Int) (st : StreamSt)
    (h : st.hasEnded = true) : bigCatch env genId st = (st, .normal) := by
  unfold bigCatch
  rw [if_pos h]

/-- The finally block does nothing once the response has ended. -/
theorem finallyBlock_ended (env : StreamEnv) (st : StreamSt)
    (h : st.hasEnded = true) : finallyBlock env st = st := by
  unfold finallyBlock
  rw [if_neg (by simp [h])]

/-- With the transport alive the outer catch on an un-ended response
writes an `error` frame and ends. -/
theorem outerCatch_alive (env : StreamEnv) (st : StreamSt)
    (hdead : env.deadFrom = none) (h : st.hasEnded = false) :
    outerCatch env st = doEnd (writeEvt st (.error "生成SVG时出错" none)) := by
  unfold outerCatch
  rw [if_neg (by simp [h]), if_pos (writeOk_alive env hdead st.writeIdx)]
  exact finallyBlock_ended env _ rfl

/-- With the transport alive the chunk loop exits normally, appending one
`streaming` frame per non-blank chunk, and never ends the response. -/
theorem streamLoop_alive (env : StreamEnv) (genId : Int)
    (hdead : env.deadFrom = none) :
    ∀ (chunks : List String) (st : StreamSt) (acc : String),
      st.hasEnded = false →
      ∃ st1 acc1, streamLoop env genId chunks st acc = (st1, acc1, .normal) ∧
        st1.trace = st.trace ++ (keptChunks chunks).map
          (fun c => StreamEvent.streaming genId c) ∧
        st1.hasEnded = false := by
  intro chunks
  induction chunks with
  | nil =>
    intro st acc hst
    exact ⟨st, acc, rfl, by simp [keptChunks], hst⟩
  | cons c cs ih =>
    intro st acc hst
    unfold streamLoop
    rw [if_neg (by simp [hst])]
    by_cases hc : trimDoc (dstr c) = []
    · rw [if_pos hc]
      obtain ⟨st1, acc1, heq, htr, hhe⟩ := ih st acc hst
      refine ⟨st1, acc1, heq, ?_, hhe⟩
      rw [htr]
      have hk : keptChunks (c :: cs) = keptChunks cs := by
        unfold keptChunks
        rw [List.filter_cons, if_neg (by simp [hc])]
      rw [hk]
    · rw [if_neg hc, if_pos (writeOk_alive env hdead st.writeIdx)]
      obtain ⟨st1, acc1, heq, htr, hhe⟩ :=
        ih (writeEvt st (.streaming genId c)) (acc ++ c) hst
      refine ⟨st1, acc1, heq, ?_, hhe⟩
      rw [htr]
      have hne : (!(trimDoc (dstr c)).isEmpty) = true := by
        cases htd : trimDoc (dstr c) with
        | nil => exact absurd htd hc
        | cons a l => rfl
      have hk : keptChunks (c :: cs) = c :: keptChunks cs := by
        unfold keptChunks
        rw [List.filter_cons, if_pos hne]
      rw [hk]
      simp [writeEvt]

/-- With the transport alive the inner try always exits normally with the
response ended, its trace extended by streaming frames, at most one
mid-sequence terminal frame, and a final terminal frame. -/
theorem innerTry_alive (env : StreamEnv) (st : StreamSt) (gen : GenerationRow)
    (uid : Int) (data : SvgGenerationInput) (now : Nat)
    (hdead : env.deadFrom = none) (hst : st.hasEnded = false) :
    (innerTry env st gen uid data now).2 = LoopExit.normal ∧
    (innerTry env st gen uid data now).1.ended = true ∧
    (innerTry env st gen uid data now).1.hasEnded = true ∧
    ∃ mids last, (innerTry env st gen uid data now).1.trace =
        st.trace ++ mids ++ [last] ∧
      isTerminal last = true ∧ startedCount mids = 0 ∧
      terminalCount mids ≤ 1 := by
  unfold innerTry
  cases hp : env.providerCallOk with
  | false =>
    rw [if_pos (by trivial)]
    rw [if_neg (by simp [hst]), if_pos (writeOk_alive env hdead st.writeIdx)]
    refine ⟨rfl, rfl, rfl, [],
      .error "所有可用模型都无法生成SVG" (some gen.id),
      by simp [doEnd, writeEvt], rfl, rfl, by decide⟩
  | true =>
    rw [if_neg (by simp)]
    obtain ⟨st1, acc1, heq, htr1, hhe1⟩ :=
      streamLoop_alive env gen.id hdead env.chunks
        { st with invokedModel := some (currentModelOf data) } "" hst
    rw [heq]
    dsimp only
    cases ht : env.streamThrows with
    | true =>
      rw [if_pos (by trivial)]
      rw [streamErrorCatch_alive env gen.id st1 hdead hhe1]
      rw [bigCatch_alive env gen.id
        (writeEvt st1 (.error "流处理错误" (some gen.id))) hdead hhe1]
      refine ⟨rfl, rfl, rfl,
        (keptChunks env.chunks).map (fun c => StreamEvent.streaming gen.id c)
          ++ [.error "流处理错误" (some gen.id)],
        .error "生成SVG时出错" (some gen.id), ?_, rfl, ?_, ?_⟩
      · simp [doEnd, writeEvt, htr1]
      · rw [startedCount_append, startedCount_streamMap]
        simp [startedCount, isStarted]
      · rw [terminalCount_append, terminalCount_streamMap]
        simp [terminalCount, isTerminal]
    | false =>
      rw [if_neg (by simp)]
      rw [if_neg (by simp [writeOk_alive env hdead st1.writeIdx])]
      cases hv : env.versionCreateOk with
      | false =>
        rw [if_pos (by trivial)]
        rw [bigCatch_alive env gen.id
          (writeEvt st1 (.completed gen.id)) hdead hhe1]
        refine ⟨rfl, rfl, rfl,
          (keptChunks env.chunks).map (fun c => StreamEvent.streaming gen.id c)
            ++ [.completed gen.id],
          .error "生成SVG时出错" (some gen.id), ?_, rfl, ?_, ?_⟩
        · simp [doEnd, writeEvt, htr1]
        · rw [startedCount_append, startedCount_streamMap]
          simp [startedCount, isStarted]
        · rw [terminalCount_append, terminalCount_streamMap]
          simp [terminalCount, isTerminal]
      | true =>
        rw [if_neg (by simp)]
        unfold finishStream
        dsimp only
        cases hd : env.decrementOk with
        | true =>
          rw [if_pos (by trivial)]
          rw [if_neg (by simp [writeEvt, hhe1])]
          refine ⟨rfl, rfl, rfl,
            (keptChunks env.chunks).map (fun c => StreamEvent.streaming gen.id c),
            .completed gen.id, ?_, rfl, startedCount_streamMap _ _, ?_⟩
          · simp [doEnd, writeEvt, htr1]
          · rw [terminalCount_streamMap]
            exact Nat.zero_le 1
        | false =>
          rw [if_neg (by simp)]
          rw [if_neg (by simp [writeEvt, hhe1])]
          rw [bigCatch_ended env gen.id _ rfl]
          refine ⟨rfl, rfl, rfl,
            (keptChunks env.chunks).map (fun c => StreamEvent.streaming gen.id c),
            .completed gen.id, ?_, rfl, startedCount_streamMap _ _, ?_⟩
          · simp [doEnd, writeEvt, htr1]
          · rw [terminalCount_streamMap]
            exact Nat.zero_le 1

/-- C2 counterexample: when the stream processing throws after the chunk
loop, the inner catch writes an `error` frame without ending the response
and rethrows, and the big catch then writes a second `error` frame — the
caller receives one `started` frame but two terminal frames. -/
theorem stream_double_error_counterexample :
    startedCount (createStreamModel wEnvStreamThrow wStore 7 wReq 100).trace = 1 ∧
    terminalCount (createStreamModel wEnvStreamThrow wStore 7 wReq 100).trace = 2 := by
  exact ⟨rfl, rfl⟩

/-- C2 (amended): with the transport alive (no dead deadline), every
streamed request writes at most one `started` frame (zero when the
pre-check rejects), at least one and at most two terminal frames
(`completed`/`error`), the last frame written is terminal, and the
response is always closed. -/
theorem stream_terminal_frames (env : StreamEnv) (store : Store) (uid : Int)
    (data : SvgGenerationInput) (now : Nat) (hdead : env.deadFrom = none) :
    startedCount (createStreamModel env store uid data now).trace ≤ 1 ∧
    1 ≤ terminalCount (createStreamModel env store uid data now).trace ∧
    terminalCount (createStreamModel env store uid data now).trace ≤ 2 ∧
    (∃ e, (createStreamModel env store uid data now).trace.getLast? = some e ∧
      isTerminal e = true) ∧
    (createStreamModel env store uid data now).ended = true := by
  unfold createStreamModel
  cases hcheck : createCheck store uid with
  | error e =>
    dsimp only
    rw [outerCatch_alive env
      { store := store, trace := [], writeIdx := 0, hasEnded := false,
        ended := false, invokedModel := none } hdead rfl]
    refine ⟨?_, ?_, ?_, ⟨.error "生成SVG时出错" none, rfl, rfl⟩, rfl⟩
    · simp [startedCount, doEnd, writeEvt, isStarted]
    · simp [terminalCount, doEnd, writeEvt, isTerminal]
    · simp [terminalCount, doEnd, writeEvt, isTerminal]
  | ok u =>
    dsimp only
    cases hgc : env.genCreateOk with
    | false =>
      rw [if_pos (by trivial)]
      rw [outerCatch_alive env
        { store := store, trace := [], writeIdx := 0, hasEnded := false,
          ended := false, invokedModel := none } hdead rfl]
      refine ⟨?_, ?_, ?_, ⟨.error "生成SVG时出错" none, rfl, rfl⟩, rfl⟩
      · simp [startedCount, doEnd, writeEvt, isStarted]
      · simp [terminalCount, doEnd, writeEvt, isTerminal]
      · simp [terminalCount, doEnd, writeEvt, isTerminal]
    | true =>
      rw [if_neg (by simp)]
      rw [if_neg (by simp [writeOk_alive env hdead 0])]
      obtain ⟨hex, hend, hhe, mids, last, htr, hlast, hsm, htm⟩ :=
        innerTry_alive env
          (writeEvt
            { store := storeAddGen store
                (mkStreamGeneration store.nextGenId uid data (resolveHeight data) now),
              trace := [], writeIdx := 0, hasEnded := false, ended := false,
              invokedModel := none }
            (.started (mkStreamGeneration store.nextGenId uid data
              (resolveHeight data) now).id))
          (mkStreamGeneration store.nextGenId uid data (resolveHeight data) now)
          uid data now hdead rfl
      rcases hit : innerTry env
          (writeEvt
            { store := storeAddGen store
                (mkStreamGeneration store.nextGenId uid data (resolveHeight data) now),
              trace := [], writeIdx := 0, hasEnded := false, ended := false,
              invokedModel := none }
            (.started (mkStreamGeneration store.nextGenId uid data
              (resolveHeight data) now).id))
          (mkStreamGeneration store.nextGenId uid data (resolveHeight data) now)
          uid data now with ⟨st3, ex⟩
      rw [hit] at hex hend hhe htr
      cases ex with
      | thrown => exact absurd hex (by simp)
      | normal =>
        dsimp only
        rw [finallyBlock_ended env st3 hhe]
        have htr' : st3.trace =
            [StreamEvent.started (mkStreamGeneration store.nextGenId uid data
              (resolveHeight data) now).id] ++ mids ++ [last] := htr
        have hs1 : startedCount
            [StreamEvent.started (mkStreamGeneration store.nextGenId uid data
              (resolveHeight data) now).id] = 1 := by
          simp [startedCount, isStarted]
        have hs2 : startedCount [last] = 0 := by
          simp [startedCount, List.filter_cons, terminal_not_started last hlast]
        have ht1 : terminalCount
            [StreamEvent.started (mkStreamGeneration store.nextGenId uid data
              (resolveHeight data) now).id] = 0 := by
          simp [terminalCount, isTerminal]
        have ht2 : terminalCount [last] = 1 := by
          simp [terminalCount, List.filter_cons, hlast]
        refine ⟨?_, ?_, ?_, ⟨last, ?_, hlast⟩, hend⟩
        · rw [htr', startedCount_append, startedCount_append, hs1, hsm, hs2]
        · rw [htr', terminalCount_append, terminalCount_append, ht1, ht2]
          omega
        · rw [htr', terminalCount_append, terminalCount_append, ht1, ht2]
          omega
        · rw [htr']
          exact List.getLast?_concat _

/-- C2 witness: the amended trace invariants evaluated on a fully
successful run. -/
theorem stream_terminal_frames_witness :
    wEnvOk.deadFrom = none ∧
    (startedCount (createStreamModel wEnvOk wStore 7 wReq 100).trace ≤ 1 ∧
     1 ≤ terminalCount (createStreamModel wEnvOk wStore 7 wReq 100).trace ∧
     terminalCount (createStreamModel wEnvOk wStore 7 wReq 100).trace ≤ 2 ∧
     (∃ e, (createStreamModel wEnvOk wStore 7 wReq 100).trace.getLast? = some e ∧
       isTerminal e = true) ∧
     (createStreamModel wEnvOk wStore 7 wReq 100).ended = true) :=
  ⟨rfl, stream_terminal_frames wEnvOk wStore 7 wReq 100 rfl⟩

/-- C9 counterexample: a successful non-thinking streamed request persists
the Generation with modelNames `["claude-3-7-sonnet-all"]` while the model
actually invoked is `"deepseek-chat"` — the persisted identifier is not
the invoked one. -/
theorem stream_modelNames_counterexample :
    (createStreamModel wEnvOk wStore 7 wReq 100).store.generations.map
        GenerationRow.modelNames = [["claude-3-7-sonnet-all"]] ∧
    (createStreamModel wEnvOk wStore 7 wReq 100).invokedModel =
      some "deepseek-chat" ∧
    ¬("claude-3-7-sonnet-all" = "deepseek-chat") := by
  exact ⟨rfl, rfl, by decide⟩

/-- C9 (amended): the persisted Generation (either left unchanged or
appended once per streamed request) records the model name selected from
the thinking flag among the claude identifiers, while the model actually
invoked agrees with it only in the thinking case and is `"deepseek-chat"`
otherwise. -/
theorem modelNames_vs_invoked (env : StreamEnv) (store : Store) (uid : Int)
    (data : SvgGenerationInput) (now : Nat) :
    ((createStreamModel env store uid data now).store.generations =
       store.generations ∨
     (createStreamModel env store uid data now).store.generations =
       store.generations ++
         [mkStreamGeneration store.nextGenId uid data (resolveHeight data) now]) ∧
    (mkStreamGeneration store.nextGenId uid data (resolveHeight data) now).modelNames =
      [if data.isThinking == some "thinking" then "claude-3-7-sonnet-thinking-all"
       else "claude-3-7-sonnet-all"] ∧
    ((data.isThinking == some "thinking") = true →
      currentModelOf data = "claude-3-7-sonnet-thinking-all") ∧
    ((data.isThinking == some "thinking") = false →
      currentModelOf data = "deepseek-chat") := by
  refine ⟨?_, rfl, ?_, ?_⟩
  · rcases createStreamModel_store_cases env store uid data now with
      h | h | ⟨_, _, _, _, acc, ⟨_, h⟩ | ⟨_, h⟩⟩
    · left; rw [h]
    · right; rw [h]; rfl
    · right; rw [h]; rfl
    · right; rw [h]; rfl
  · intro h
    simp [currentModelOf, h]
  · intro h
    simp [currentModelOf, h]

/-- C9 witness: the amended theorem evaluated at the fixture request. -/
theorem modelNames_vs_invoked_witness :
    (mkStreamGeneration 1 7 wReq (resolveHeight wReq) 100).modelNames =
      ["claude-3-7-sonnet-all"] ∧ currentModelOf wReq = "deepseek-chat" :=
  ⟨((modelNames_vs_invoked wEnvOk wStore 7 wReq 100).2.1).trans (by decide),
   (modelNames_vs_invoked wEnvOk wStore 7 wReq 100).2.2.2 rfl⟩

end SvgBackend
